import Mathlib

/-!
# TC358746 parallel to CSI-2 bridge: timing negotiation and PLL derivation

A shallow embedding of the arithmetic core of `src/tc358746.c`.

Conventions of the embedding:

* C `unsigned int` values are natural numbers; every operation that can
  leave the 32-bit range is wrapped with `u32`.
* C `int` values are integers; the conversion of an `unsigned int` to `int`
  is `to_int` (two's complement), the conversion back is `of_int`.
* A function returns `none` where the C code has no defined result
  (division by zero, array index out of bounds) and `some r` otherwise.
* Error codes are returned as in C: `0` for success, `-EINVAL` for failure.
-/

namespace TC358746

set_option autoImplicit false

/-! ## Machine arithmetic -/

/-- Wrap a value to a C `unsigned int` (32 bit). -/
def u32 (x : Nat) : Nat := x % 2 ^ 32

/-- Wrap a value to a C `u16`. -/
def u16 (x : Nat) : Nat := x % 2 ^ 16

/-- Wrap a value to a C `unsigned char`. -/
def u8 (x : Nat) : Nat := x % 2 ^ 8

/-- Unsigned 32-bit subtraction `a - b`. -/
def usub (a b : Nat) : Nat := u32 (u32 a + 2 ^ 32 - u32 b)

/-- Conversion of an `unsigned int` to `int` (two's complement). -/
def to_int (x : Nat) : Int :=
  if u32 x < 2 ^ 31 then (u32 x : Int) else (u32 x : Int) - 2 ^ 32

/-- Conversion of an `int` to `unsigned int`. -/
def of_int (i : Int) : Nat := (i % 2 ^ 32).toNat

/-- The errno value `EINVAL` of the Linux kernel. -/
def EINVAL : Int := 22

/-- Kernel macro `DIV_ROUND_UP(n, d)` = `(n + d - 1) / d` on `unsigned int`. -/
def DIV_ROUND_UP (n d : Nat) : Nat := usub (u32 (n + d)) 1 / d

/-- Kernel macro `DIV_ROUND_CLOSEST(x, d)` for an unsigned operand:
`(x + d / 2) / d` on `unsigned int`. -/
def DIV_ROUND_CLOSEST (x d : Nat) : Nat := u32 (x + d / 2) / d

/-! ## Constants (lines 71-83) -/

def TC358746_MAX_FIFO_SIZE : Nat := 512
def TC358746_DEF_LINK_FREQ : Nat := 0
def TC358746_LINEINIT_MIN_US : Nat := 110
def TC358746_TWAKEUP_MIN_US : Nat := 1200
def TC358746_LPTXTIME_MIN_NS : Nat := 55
def TC358746_TCLKZERO_MIN_NS : Nat := 305
def TC358746_TCLKTRAIL_MIN_NS : Nat := 65
def TC358746_TCLKPOST_MIN_NS : Nat := 65
def TC358746_THSZERO_MIN_NS : Nat := 150
def TC358746_THSTRAIL_MIN_NS : Nat := 65
def TC358746_THSPREPARE_MIN_NS : Nat := 45

/-! ## Data model (lines 96-171) -/

/-- The `struct tc358746_csi_param`: one candidate link setting. -/
structure tc358746_csi_param where
  speed_range : Nat
  unit_clk_hz : Nat
  unit_clk_mul : Nat
  speed_per_lane : Nat
  lane_num : Nat
  is_continuous_clk : Bool
  lineinitcnt : Nat
  lptxtimecnt : Nat
  twakeupcnt : Nat
  tclk_preparecnt : Nat
  tclk_zerocnt : Nat
  tclk_trailcnt : Nat
  tclk_postcnt : Nat
  ths_preparecnt : Nat
  ths_zerocnt : Nat
  ths_trailcnt : Nat
  csi_hs_lp_hs_ps : Nat
  deriving DecidableEq, Repr

/-- A zero-initialised `struct tc358746_csi_param` (as left by `devm_kcalloc`). -/
def csi_param_zero : tc358746_csi_param :=
  { speed_range := 0, unit_clk_hz := 0, unit_clk_mul := 0, speed_per_lane := 0,
    lane_num := 0, is_continuous_clk := false, lineinitcnt := 0, lptxtimecnt := 0,
    twakeupcnt := 0, tclk_preparecnt := 0, tclk_zerocnt := 0, tclk_trailcnt := 0,
    tclk_postcnt := 0, ths_preparecnt := 0, ths_zerocnt := 0, ths_trailcnt := 0,
    csi_hs_lp_hs_ps := 0 }

/-- The `struct tc358746_mbus_fmt`: one entry of the format table. -/
structure tc358746_mbus_fmt where
  code : Nat
  bus_width : Nat
  bpp : Nat
  pdformat : Nat
  pdataf : Nat
  ppp : Nat
  csitx_only : Bool
  deriving DecidableEq, Repr

/-- The fields of `struct v4l2_mbus_framefmt` (Linux `v4l2-mediabus.h`) that
the driver reads or writes; the colour-space fields are only copied. -/
structure v4l2_mbus_framefmt where
  width : Nat
  height : Nat
  code : Nat
  field : Nat
  deriving DecidableEq, Repr

/-- The fields of `struct tc358746_state` that the modelled functions read or
write.  `link_freq` is the current value of the link-frequency menu control
(what `v4l2_ctrl_g_ctrl(state->link_freq)` returns). -/
structure tc358746_state where
  fmt : v4l2_mbus_framefmt
  fmt_changed : Bool
  pllinclk_hz : Nat
  pll_prd : Nat
  pll_fbd : Nat
  vb_fifo : Nat
  link_freq : Nat
  link_freq_settings : List tc358746_csi_param
  link_frequencies : List Nat
  link_frequencies_num : Nat
  pclk : Nat
  hblank : Nat
  deriving DecidableEq, Repr

/-! ## Format table (lines 85-94, 174-213, 259-287) -/

/-- Media bus format codes of Linux `media-bus-format.h`. -/
def MEDIA_BUS_FMT_UYVY8_2X8 : Nat := 0x2006
def MEDIA_BUS_FMT_UYVY8_1X16 : Nat := 0x200f
def MEDIA_BUS_FMT_YUYV8_1X16 : Nat := 0x2011
def MEDIA_BUS_FMT_UYVY10_2X10 : Nat := 0x2018
def MEDIA_BUS_FMT_GBR888_1X24 : Nat := 0x1014

/-- The value `V4L2_FIELD_NONE` of Linux `videodev2.h`. -/
def V4L2_FIELD_NONE : Nat := 1

/-- The register-field constants of the driver header `tc358746.h` that the
format table refers to.  The header is not among the sources, so the values are
parameters of the table. -/
structure tc358746_h where
  DATAFMT_PDFMT_YCBCRFMT_422_8_BIT : Nat
  DATAFMT_PDFMT_YCBCRFMT_422_10_BIT : Nat
  DATAFMT_PDFMT_YCBCRFMT_444 : Nat
  CONFCTL_PDATAF_MODE0 : Nat
  CONFCTL_PDATAF_MODE1 : Nat
  CONFCTL_PDATAF_MODE2 : Nat
  deriving DecidableEq, Repr

/-- The default format `tc358746_def_fmt`. -/
def tc358746_def_fmt : v4l2_mbus_framefmt :=
  { width := 640, height := 480, code := MEDIA_BUS_FMT_UYVY8_2X8, field := V4L2_FIELD_NONE }

/-- The table `tc358746_formats`. -/
def tc358746_formats (h : tc358746_h) : List tc358746_mbus_fmt :=
  [ { code := MEDIA_BUS_FMT_UYVY8_2X8, bus_width := 8, bpp := 16,
      pdformat := h.DATAFMT_PDFMT_YCBCRFMT_422_8_BIT, pdataf := h.CONFCTL_PDATAF_MODE0,
      ppp := 2, csitx_only := false },
    { code := MEDIA_BUS_FMT_UYVY8_1X16, bus_width := 16, bpp := 16,
      pdformat := h.DATAFMT_PDFMT_YCBCRFMT_422_8_BIT, pdataf := h.CONFCTL_PDATAF_MODE1,
      ppp := 1, csitx_only := false },
    { code := MEDIA_BUS_FMT_YUYV8_1X16, bus_width := 16, bpp := 16,
      pdformat := h.DATAFMT_PDFMT_YCBCRFMT_422_8_BIT, pdataf := h.CONFCTL_PDATAF_MODE2,
      ppp := 1, csitx_only := false },
    { code := MEDIA_BUS_FMT_UYVY10_2X10, bus_width := 10, bpp := 20,
      pdformat := h.DATAFMT_PDFMT_YCBCRFMT_422_10_BIT, pdataf := h.CONFCTL_PDATAF_MODE0,
      ppp := 2, csitx_only := false },
    { code := MEDIA_BUS_FMT_GBR888_1X24, bus_width := 24, bpp := 24,
      pdformat := h.DATAFMT_PDFMT_YCBCRFMT_444, pdataf := h.CONFCTL_PDATAF_MODE0,
      ppp := 2, csitx_only := true } ]

/-- The loop of `tc358746_get_format` over a table: the first entry with the
given code, `none` for the C `NULL`. -/
def get_format_loop (code : Nat) : List tc358746_mbus_fmt → Option tc358746_mbus_fmt
  | [] => none
  | f :: rest => if f.code = code then some f else get_format_loop code rest

/-- The function `tc358746_get_format`. -/
def tc358746_get_format (h : tc358746_h) (code : Nat) : Option tc358746_mbus_fmt :=
  get_format_loop code (tc358746_formats h)

/-- The loop of `tc358746_format_supported` over a table. -/
def format_supported_loop (code : Nat) : List tc358746_mbus_fmt → Int
  | [] => -EINVAL
  | f :: rest => if f.code = code then 0 else format_supported_loop code rest

/-- The function `tc358746_format_supported`. -/
def tc358746_format_supported (h : tc358746_h) (code : Nat) : Int :=
  format_supported_loop code (tc358746_formats h)

/-! ## FIFO solver: `tc358746_adjust_fifo_size` (lines 289-371) -/

/-- The loop-invariant locals of `tc358746_adjust_fifo_size` (lines 304-321). -/
structure fifo_locals where
  pclk_period_ps : Nat
  csi_bps_period_ps : Nat
  csi_hsclk_period_ps : Nat
  p_hactive_ps : Nat
  p_htotal_ps : Nat
  deriving DecidableEq, Repr

/-- Lines 304-321: the three clock periods and the parallel line times.  The
result is `none` when one of the three period divisions divides by zero. -/
def adjust_fifo_locals (state : tc358746_state) (format : tc358746_mbus_fmt)
    (csi_settings : tc358746_csi_param) (width : Int) : Option fifo_locals :=
  let csi_bps := u32 (csi_settings.speed_per_lane * csi_settings.lane_num)
  let csi_hsclk := csi_settings.speed_per_lane >>> 3
  if state.pclk / 1000 = 0 ∨ csi_bps / 1000 = 0 ∨ csi_hsclk / 1000 = 0 then none
  else
    let pclk_period_ps := 1000000000 / (state.pclk / 1000)
    let csi_bps_period_ps := 1000000000 / (csi_bps / 1000)
    let csi_hsclk_period_ps := 1000000000 / (csi_hsclk / 1000)
    let p_hactive_ps := u32 (u32 (pclk_period_ps * format.ppp) * of_int width)
    let p_hblank_ps := u32 (pclk_period_ps * state.hblank)
    let p_htotal_ps := u32 (p_hblank_ps + p_hactive_ps)
    some { pclk_period_ps := pclk_period_ps
           csi_bps_period_ps := csi_bps_period_ps
           csi_hsclk_period_ps := csi_hsclk_period_ps
           p_hactive_ps := p_hactive_ps
           p_htotal_ps := p_htotal_ps }

/-- Lines 335-360: the body of the FIFO loop for one `_fifo_size`; true when
the loop breaks.  The three differences are `int` variables, compared with 0
as signed values. -/
def fifo_fits (format : tc358746_mbus_fmt) (csi_settings : tc358746_csi_param)
    (l : fifo_locals) (width : Int) (_fifo_size : Nat) : Bool :=
  let c_fifo_delay_ps := u32 (u32 (_fifo_size * 32) * l.pclk_period_ps)
  let c_fifo_delay_ps := c_fifo_delay_ps / format.bus_width
  let c_fifo_delay_ps := u32 (c_fifo_delay_ps + u32 (4 * l.csi_hsclk_period_ps))
  let c_hactive_ps := u32 (u32 (l.csi_bps_period_ps * format.bpp) * of_int width)
  let c_hactive_ps := u32 (c_hactive_ps + c_fifo_delay_ps)
  let c_lp_active_ps := usub l.p_htotal_ps c_hactive_ps
  let c_hactive_ps_diff := to_int (usub c_hactive_ps l.p_hactive_ps)
  let c_fifo_delay_ps_diff := to_int (usub l.p_htotal_ps c_hactive_ps)
  let c_lp_active_ps_diff := to_int (usub c_lp_active_ps csi_settings.csi_hs_lp_hs_ps)
  decide (0 < c_hactive_ps_diff) && decide (0 < c_fifo_delay_ps_diff) &&
    decide (0 < c_lp_active_ps_diff)

/-- Lines 328-362: the loop `for (_fifo_size = 1; _fifo_size < 512; _fifo_size++)`.
The first argument is the number of values still to try,
`TC358746_MAX_FIFO_SIZE - _fifo_size`; the result is the value of `_fifo_size`
when the loop is left. -/
def fifo_loop (fits : Nat → Bool) : Nat → Nat → Nat
  | 0, _fifo_size => _fifo_size
  | n + 1, _fifo_size =>
    if fits _fifo_size then _fifo_size else fifo_loop fits n (_fifo_size + 1)

/-- The function `tc358746_adjust_fifo_size`: returns the C return value and
the value stored through `fifo_size`.  The loop body runs at least once, so a
zero `bus_width` always divides by zero. -/
def tc358746_adjust_fifo_size (state : tc358746_state) (format : tc358746_mbus_fmt)
    (csi_settings : tc358746_csi_param) (width : Int) : Option (Int × Nat) :=
  match adjust_fifo_locals state format csi_settings width with
  | none => none
  | some l =>
    if format.bus_width = 0 then none
    else
      let _fifo_size :=
        fifo_loop (fifo_fits format csi_settings l width) (TC358746_MAX_FIFO_SIZE - 1) 1
      some (if _fifo_size = TC358746_MAX_FIFO_SIZE then -EINVAL else 0, _fifo_size)

/-! ## Width and link-frequency search: `tc358746_adjust_timings` (lines 373-416) -/

/-- The values `tc358746_adjust_timings` hands back: the returned `freq`, and
the values left in `*width` and `*fifo_size`. -/
structure timings_result where
  freq : Nat
  width : Int
  fifo_size : Nat
  deriving DecidableEq, Repr

/-- Lines 394-396 and 404-407: `csi_lane_setting = &state->link_freq_settings[freq]`
followed by the call of `tc358746_adjust_fifo_size` for it. -/
def adjust_fifo_at (state : tc358746_state) (format : tc358746_mbus_fmt) (freq : Nat)
    (_width : Int) : Option (Int × Nat) :=
  match state.link_freq_settings[freq]? with
  | none => none
  | some csi_lane_setting => tc358746_adjust_fifo_size state format csi_lane_setting _width

/-- Lines 400-410: the loop `for (freq = 0; freq < link_frequencies_num; freq++)`
at one width.  The first argument is the number of indices still to visit,
`link_frequencies_num - freq`.  The result is `(found, freq, fifo_size)`:
`found` is true when the loop is left through `goto out`, and `fifo_size` is
the value last stored through the pointer. -/
def freq_sweep (state : tc358746_state) (format : tc358746_mbus_fmt) (cur_freq : Nat)
    (_width : Int) : Nat → Nat → Nat → Option (Bool × Nat × Nat)
  | 0, freq, fifo_size => some (false, freq, fifo_size)
  | n + 1, freq, fifo_size =>
    if freq = cur_freq then freq_sweep state format cur_freq _width n (freq + 1) fifo_size
    else
      match adjust_fifo_at state format freq _width with
      | none => none
      | some (err, fifo) =>
        if err = 0 then some (true, freq, fifo)
        else freq_sweep state format cur_freq _width n (freq + 1) fifo

/-- Lines 393-411: the loop `for (_width = *width; _width > 0; _width -= 10)`.
The first argument bounds the number of iterations; `freq` and `fifo_size`
carry the current values of the C variables into the next iteration. -/
def width_loop (state : tc358746_state) (format : tc358746_mbus_fmt) (cur_freq : Nat) :
    Nat → Int → Nat → Nat → Option timings_result
  | 0, _, _, _ => none
  | n + 1, _width, freq, fifo_size =>
    if 0 < _width then
      match adjust_fifo_at state format cur_freq _width with
      | none => none
      | some (err, fifo) =>
        if err = 0 then some { freq := freq, width := _width, fifo_size := fifo }
        else
          match freq_sweep state format cur_freq _width state.link_frequencies_num 0 fifo with
          | none => none
          | some (true, freq1, fifo1) =>
            some { freq := freq1, width := _width, fifo_size := fifo1 }
          | some (false, freq1, fifo1) =>
            width_loop state format cur_freq n (_width - 10) freq1 fifo1
    else some { freq := freq, width := _width, fifo_size := fifo_size }

/-- The function `tc358746_adjust_timings`.  `width` is the value of `*width`
on entry and `fifo_size` the (possibly uninitialised) value of `*fifo_size` on
entry.  The width loop runs at most `width` times, so the iteration bound
`width.toNat + 1` is never exhausted. -/
def tc358746_adjust_timings (state : tc358746_state) (format : tc358746_mbus_fmt)
    (width : Int) (fifo_size : Nat) : Option timings_result :=
  let cur_freq := state.link_freq
  width_loop state format cur_freq (width.toNat + 1) width cur_freq fifo_size

/-! ## D-PHY timing synthesis: `tc358746_calculate_csi_txtimings` (lines 418-608) -/

/-- The function `tc358746_calculate_csi_txtimings`: the C return value and the
link setting after the call.  The result is `none` when a division divides by
zero. -/
def tc358746_calculate_csi_txtimings (csi_setting : tc358746_csi_param) :
    Option (Int × tc358746_csi_param) :=
  let spl := csi_setting.speed_per_lane
  let hsclk := spl >>> 3
  let hfclk := hsclk >>> 1
  if 125000000 < hsclk then some (-EINVAL, csi_setting)
  else if hfclk = 0 ∨ hsclk / 1000 = 0 ∨ spl / 1000 = 0 then none
  else
    let hfclk_p_ns := DIV_ROUND_CLOSEST 1000000000 hfclk
    let hsclk_p_ps := 1000000000 / (hsclk / 1000)
    let spl_p_ps := 1000000000 / (spl / 1000)
    if hfclk_p_ns = 0 ∨ hsclk_p_ps = 0 then none
    else
      let lineinitcnt := DIV_ROUND_UP (TC358746_LINEINIT_MIN_US * 1000) hfclk_p_ns
      let lptxtimecnt := usub (DIV_ROUND_UP (TC358746_LPTXTIME_MIN_NS * 1000) hsclk_p_ps) 1
      let tclk_preparecnt := lptxtimecnt
      let tmp := usub (TC358746_TCLKZERO_MIN_NS * 1000) (u32 (3 * spl_p_ps))
      let tmp := DIV_ROUND_UP tmp hsclk_p_ps
      let tclk_zerocnt := usub tmp 2
      let tmp := u32 (TC358746_THSPREPARE_MIN_NS * 1000 + u32 (4 * spl_p_ps))
      let tmp := DIV_ROUND_UP tmp hsclk_p_ps
      let ths_preparecnt := usub tmp 1
      let tmp := usub (TC358746_THSZERO_MIN_NS * 1000) spl_p_ps
      let tmp := DIV_ROUND_UP tmp hsclk_p_ps
      let ths_zerocnt := if tmp < 11 then 0 else tmp - 11
      let tmp := hsclk_p_ps / 1000
      let wakeup_div := u32 (tmp * u32 (lptxtimecnt + 1))
      if wakeup_div = 0 then none
      else
        let twakeupcnt := usub (DIV_ROUND_UP (TC358746_TWAKEUP_MIN_US * 1000) wakeup_div) 1
        let tmp := u32 (TC358746_THSTRAIL_MIN_NS * 1000 + u32 (15 * spl_p_ps))
        let tmp := DIV_ROUND_UP tmp hsclk_p_ps
        let ths_trailcnt := usub tmp 5
        let tmp := u32 (TC358746_TCLKTRAIL_MIN_NS * 1000 + u32 (3 * spl_p_ps))
        let tmp := DIV_ROUND_UP tmp hsclk_p_ps
        let tclk_trailcnt := if tmp < 5 then 0 else tmp - 5
        let tmp := u32 (TC358746_TCLKPOST_MIN_NS * 1000 + u32 (49 * spl_p_ps))
        let tmp := DIV_ROUND_UP tmp hsclk_p_ps
        let tclk_postcnt := usub tmp 3
        let lptxtime_ps := u32 (u32 (lptxtimecnt + 1) * hsclk_p_ps)
        let tclk_post_ps :=
          u32 (u32 (u32 (4 + tclk_postcnt) * hsclk_p_ps) + u32 (3 * spl_p_ps))
        let tclk_trail_ps :=
          usub (u32 (u32 (5 + tclk_trailcnt) * hsclk_p_ps)) (u32 (3 * spl_p_ps))
        let tclk_zero_ps :=
          u32 (u32 (u32 (2 + tclk_zerocnt) * hsclk_p_ps) + u32 (3 * spl_p_ps))
        let ths_trail_ps :=
          usub (u32 (u32 (5 + ths_trailcnt) * hsclk_p_ps)) (u32 (11 * spl_p_ps))
        let ths_zero_ps :=
          u32 (u32 (u32 (u32 (7 + ths_zerocnt) * hsclk_p_ps) + u32 (4 * hsclk_p_ps)) +
            u32 (11 * spl_p_ps))
        let tmp :=
          if csi_setting.is_continuous_clk then
            let tmp := u32 (2 * lptxtime_ps)
            let tmp := u32 (tmp + u32 (25 * hsclk_p_ps))
            let tmp := u32 (tmp + ths_trail_ps)
            u32 (tmp + ths_zero_ps)
          else
            let tmp := u32 (4 * lptxtime_ps)
            let tmp := u32 (tmp + u32 (u32 (u32 (u32 (ths_trail_ps + tclk_post_ps) +
              tclk_trail_ps) + tclk_zero_ps) + ths_zero_ps))
            let tmp := u32 (tmp + u32 (u32 (13 + u32 (lptxtimecnt * 8)) * hsclk_p_ps))
            let tmp := u32 (tmp + u32 (22 * hsclk_p_ps))
            let tmp := u32 (tmp * 3)
            DIV_ROUND_CLOSEST tmp 2
        some (0, { csi_setting with
          lineinitcnt := lineinitcnt
          lptxtimecnt := lptxtimecnt
          twakeupcnt := twakeupcnt
          tclk_preparecnt := tclk_preparecnt
          tclk_zerocnt := tclk_zerocnt
          tclk_trailcnt := tclk_trailcnt
          tclk_postcnt := tclk_postcnt
          ths_preparecnt := ths_preparecnt
          ths_zerocnt := ths_zerocnt
          ths_trailcnt := ths_trailcnt
          csi_hs_lp_hs_ps := tmp })

/-! ## Format negotiation: `tc358746_set_fmt` (lines 1241-1334) -/

/-- Pad flags of Linux `media.h`. -/
def MEDIA_PAD_FL_SINK : Nat := 1
def MEDIA_PAD_FL_SOURCE : Nat := 2

/-- The `which` values of Linux `v4l2-subdev.h`. -/
def V4L2_SUBDEV_FORMAT_TRY : Nat := 0
def V4L2_SUBDEV_FORMAT_ACTIVE : Nat := 1

/-- The `struct v4l2_subdev_format` request of Linux `v4l2-subdev.h`. -/
structure v4l2_subdev_format where
  which : Nat
  pad : Nat
  format : v4l2_mbus_framefmt
  deriving DecidableEq, Repr

/-- What a call of `tc358746_set_fmt` leaves behind: the C return value, the
driver state, the request structure handed back to the caller and the try
format kept in the pad configuration. -/
structure set_fmt_result where
  ret : Int
  state : tc358746_state
  format : v4l2_subdev_format
  try_fmt : v4l2_mbus_framefmt
  deriving DecidableEq, Repr

/-- The call `v4l2_ctrl_s_ctrl(state->link_freq, val)` of the V4L2 control
framework: the menu control was created with the range
`0 .. link_frequencies_num - 1` (line 1795); a value outside that range is
refused and the control keeps its value. -/
def v4l2_ctrl_s_ctrl (state : tc358746_state) (val : Nat) : tc358746_state :=
  if val < state.link_frequencies_num then { state with link_freq := val } else state

/-- The function `tc358746_get_fmt` (lines 1241-1256). -/
def tc358746_get_fmt (state : tc358746_state) (format : v4l2_subdev_format) :
    Int × v4l2_subdev_format :=
  if format.pad ≠ 0 ∧ format.pad ≠ 1 then (-EINVAL, format)
  else
    (0, { format with format := { format.format with
            code := state.fmt.code, width := state.fmt.width,
            height := state.fmt.height, field := state.fmt.field } })

/-- The function `tc358746_set_fmt`.  `pad_flags` is `state->pads[format->pad].flags`,
`try_fmt` the try format of the pad configuration, `sensor_pclk` and
`sensor_hblank` the values read from the controls of the video source, and
`vb_fifo` the initial content of the local variable of that name. -/
def tc358746_set_fmt (h : tc358746_h) (state : tc358746_state) (pad_flags : Nat)
    (try_fmt : v4l2_mbus_framefmt) (format : v4l2_subdev_format)
    (sensor_pclk sensor_hblank : Nat) (vb_fifo : Nat) : Option set_fmt_result :=
  let cur_freq := state.link_freq
  if pad_flags = MEDIA_PAD_FL_SOURCE then
    let r := tc358746_get_fmt state format
    some { ret := r.1, state := state, format := r.2, try_fmt := try_fmt }
  else if format.which ≠ V4L2_SUBDEV_FORMAT_TRY ∧ format.which ≠ V4L2_SUBDEV_FORMAT_ACTIVE then
    some { ret := -EINVAL, state := state, format := format, try_fmt := try_fmt }
  else
    let found := tc358746_get_format h format.format.code
    let code := if found.isNone then tc358746_def_fmt.code else format.format.code
    match tc358746_get_format h code with
    | none => none
    | some tc358746_mbusformat =>
      let state := { state with pclk := u32 sensor_pclk, hblank := u32 sensor_hblank }
      match tc358746_adjust_timings state tc358746_mbusformat
          (to_int format.format.width) vb_fifo with
      | none => none
      | some t =>
        let code :=
          if tc358746_format_supported h code ≠ 0 then MEDIA_BUS_FMT_UYVY8_2X8 else code
        let fmt : v4l2_mbus_framefmt :=
          { format.format with width := of_int t.width, code := code,
                               field := V4L2_FIELD_NONE }
        let format := { format with format := fmt }
        if format.which = V4L2_SUBDEV_FORMAT_ACTIVE then
          let state := { state with fmt := fmt, fmt_changed := true,
                                    vb_fifo := u16 t.fifo_size }
          let state := if t.freq ≠ cur_freq then v4l2_ctrl_s_ctrl state t.freq else state
          some { ret := 0, state := state, format := format, try_fmt := try_fmt }
        else
          some { ret := 0, state := state, format := format, try_fmt := fmt }

/-! ## Firmware description: lane settings and PLL (lines 1500-1712) -/

/-- The flag `V4L2_MBUS_CSI2_CONTINUOUS_CLOCK` of Linux `v4l2-mediabus.h`. -/
def V4L2_MBUS_CSI2_CONTINUOUS_CLOCK : Nat := 2 ^ 8

/-- The fields of `struct v4l2_fwnode_endpoint` the driver reads:
`link_frequencies` holds 64-bit values, `num_data_lanes` and `flags` are the
fields of `bus.mipi_csi2`. -/
structure v4l2_fwnode_endpoint where
  link_frequencies : List Nat
  nr_of_link_frequencies : Nat
  num_data_lanes : Nat
  flags : Nat
  deriving DecidableEq, Repr

/-- Lines 1506-1549: the loop of `tc358746_set_lane_settings`; the first
argument is `nr_of_link_frequencies - i`.  The result is the C return value
and the state; `link_frequencies_num` is stored only after the loop (line 1551). -/
def set_lane_loop (fw : v4l2_fwnode_endpoint) :
    Nat → Nat → tc358746_state → Option (Int × tc358746_state)
  | 0, _, state =>
    some (0, { state with link_frequencies_num := fw.nr_of_link_frequencies })
  | n + 1, i, state =>
    match fw.link_frequencies[i]?, state.link_freq_settings[i]? with
    | some link_freq, some s =>
      if state.link_frequencies.length ≤ i then none
      else
        let state := { state with link_frequencies := state.link_frequencies.set i link_freq }
        let bps_pr_lane := u32 (2 * link_freq)
        if bps_pr_lane < 62500000 ∨ 1000000000 < bps_pr_lane then some (-EINVAL, state)
        else
          let speed_range :=
            if 500000000 < bps_pr_lane then 0
            else if 250000000 < bps_pr_lane then 1
            else if 125000000 < bps_pr_lane then 2
            else 3
          let unit_clk_hz := state.pllinclk_hz >>> speed_range
          if unit_clk_hz = 0 then none
          else
            let s := { s with
              speed_range := speed_range
              unit_clk_hz := unit_clk_hz
              unit_clk_mul := u8 (bps_pr_lane / unit_clk_hz)
              speed_per_lane := bps_pr_lane
              lane_num := fw.num_data_lanes
              is_continuous_clk := decide (fw.flags &&& V4L2_MBUS_CSI2_CONTINUOUS_CLOCK ≠ 0) }
            set_lane_loop fw n (i + 1)
              { state with link_freq_settings := state.link_freq_settings.set i s }
    | _, _ => none

/-- The function `tc358746_set_lane_settings`. -/
def tc358746_set_lane_settings (state : tc358746_state) (fw : v4l2_fwnode_endpoint) :
    Option (Int × tc358746_state) :=
  set_lane_loop fw fw.nr_of_link_frequencies 0 state

/-- Lines 1570-1579: the loop of `tc358746_apply_fw`; the first argument is
`link_frequencies_num - i`. -/
def apply_fw_loop : Nat → Nat → tc358746_state → Option (Int × tc358746_state)
  | 0, _, state => some (0, state)
  | n + 1, i, state =>
    match state.link_freq_settings[i]? with
    | none => none
    | some csi_setting =>
      match tc358746_calculate_csi_txtimings csi_setting with
      | none => none
      | some (err, s) =>
        let state := { state with link_freq_settings := state.link_freq_settings.set i s }
        if err ≠ 0 then some (err, state) else apply_fw_loop n (i + 1) state

/-- The function `tc358746_apply_fw`; `clk_err` is the value returned by
`clk_prepare_enable`. -/
def tc358746_apply_fw (state : tc358746_state) (clk_err : Int) :
    Option (Int × tc358746_state) :=
  match apply_fw_loop state.link_frequencies_num 0 state with
  | none => none
  | some (err, state) =>
    if err ≠ 0 then some (err, state)
    else
      let state := { state with vb_fifo := 1 }
      if clk_err ≠ 0 then some (clk_err, state) else some (0, state)

/-- Lines 1619-1641 of `tc358746_probe_fw`: the derivation of the PLL
pre-divider and of the PLL input clock from the reference clock.  `rate` is the
`unsigned long` that `clk_get_rate` returns; line 1619 stores it in the
`unsigned int refclk`, which keeps its low 32 bits.  `pll_prediv` is an
`unsigned char`. -/
def probe_fw_pll (state : tc358746_state) (rate : Nat) : Int × tc358746_state :=
  let refclk := u32 rate
  if refclk < 6000000 ∨ 40000000 < refclk then (-EINVAL, state)
  else
    let pll_prediv := u8 (DIV_ROUND_CLOSEST refclk 4000000)
    if pll_prediv < 1 ∨ 16 < pll_prediv then (-EINVAL, state)
    else
      let state := { state with pll_prd := pll_prediv }
      let pllinclk := DIV_ROUND_CLOSEST refclk pll_prediv
      if pllinclk < 4000000 ∨ 40000000 < pllinclk then (-EINVAL, state)
      else (0, { state with pllinclk_hz := pllinclk })

/-- The function `tc358746_probe_fw` from line 1619 on, for a reference clock
that was obtained (`rate` is what `clk_get_rate` returns) and an endpoint that
was parsed: the PLL derivation, the checks of the endpoint, the allocation of
the two zeroed arrays and `tc358746_set_lane_settings`. -/
def tc358746_probe_fw (state : tc358746_state) (rate : Nat)
    (endpoint : v4l2_fwnode_endpoint) : Option (Int × tc358746_state) :=
  let r := probe_fw_pll state rate
  if r.1 ≠ 0 then some r
  else
    let state := r.2
    if endpoint.num_data_lanes = 0 ∨ endpoint.nr_of_link_frequencies = 0 then
      some (-EINVAL, state)
    else if 4 < endpoint.num_data_lanes then some (-EINVAL, state)
    else
      let state := { state with
        link_freq_settings := List.replicate endpoint.nr_of_link_frequencies csi_param_zero
        link_frequencies := List.replicate endpoint.nr_of_link_frequencies 0 }
      tc358746_set_lane_settings state endpoint

/-! ## PLL feedback divider: `tc358746_set_pll` (lines 858-877) -/

/-- The function `tc358746_set_pll` up to line 877: the computation of the
feedback divider for the current link setting (`tc358746_g_cur_csi_settings`);
the register accesses that follow are not modelled.  `pll_fbd` and `pll_frs`
are `u16`; a shift by 32 or more has no defined result. -/
def tc358746_set_pll (state : tc358746_state) : Option tc358746_state :=
  match state.link_freq_settings[state.link_freq]? with
  | none => none
  | some csi_setting =>
    let pll_frs := u16 csi_setting.speed_range
    if state.pllinclk_hz = 0 ∨ 32 ≤ pll_frs then none
    else
      let pll_fbd := u16 (csi_setting.speed_per_lane / state.pllinclk_hz)
      let pll_fbd := u16 (pll_fbd <<< pll_frs)
      some { state with pll_fbd := pll_fbd }

/-- The link setting `t` with its eleven synthesized timing fields replaced by
those of `r`. -/
def with_timings_of (t r : tc358746_csi_param) : tc358746_csi_param :=
  { t with
    lineinitcnt := r.lineinitcnt
    lptxtimecnt := r.lptxtimecnt
    twakeupcnt := r.twakeupcnt
    tclk_preparecnt := r.tclk_preparecnt
    tclk_zerocnt := r.tclk_zerocnt
    tclk_trailcnt := r.tclk_trailcnt
    tclk_postcnt := r.tclk_postcnt
    ths_preparecnt := r.ths_preparecnt
    ths_zerocnt := r.ths_zerocnt
    ths_trailcnt := r.ths_trailcnt
    csi_hs_lp_hs_ps := r.csi_hs_lp_hs_ps }

/-! ## Predicates used in the statements -/

/-- The three period divisions and the division by the bus width of
`tc358746_adjust_fifo_size` are defined (no divisor is zero). -/
def periods_defined (state : tc358746_state) (format : tc358746_mbus_fmt)
    (csi_settings : tc358746_csi_param) : Prop :=
  state.pclk / 1000 ≠ 0 ∧
  u32 (csi_settings.speed_per_lane * csi_settings.lane_num) / 1000 ≠ 0 ∧
  (csi_settings.speed_per_lane >>> 3) / 1000 ≠ 0 ∧
  format.bus_width ≠ 0

/-- The three feasibility inequalities of the FIFO loop hold for `_fifo_size`,
each evaluated as the code evaluates it. -/
def fifo_feasible (state : tc358746_state) (format : tc358746_mbus_fmt)
    (csi_settings : tc358746_csi_param) (width : Int) (_fifo_size : Nat) : Prop :=
  ∃ l, adjust_fifo_locals state format csi_settings width = some l ∧
    fifo_fits format csi_settings l width _fifo_size = true

/-- The link setting with index `freq` is feasible at `width`:
`tc358746_adjust_fifo_size` succeeds for it. -/
def link_feasible (state : tc358746_state) (format : tc358746_mbus_fmt) (freq : Nat)
    (width : Int) : Prop :=
  ∃ F, adjust_fifo_at state format freq width = some (0, F)

/-- Some link setting of the table is feasible at `width`. -/
def any_feasible (state : tc358746_state) (format : tc358746_mbus_fmt) (width : Int) : Prop :=
  ∃ i, i < state.link_frequencies_num ∧ link_feasible state format i width

/-- What a result of the width loop says about the search: `k` widths were
exhausted before the loop was left at `w - 10 * k`. -/
def width_loop_post (state : tc358746_state) (format : tc358746_mbus_fmt) (cur : Nat)
    (w : Int) (fr f0 : Nat) (r : timings_result) : Prop :=
  ∃ k : Nat, r.width = w - 10 * (k : Int) ∧
    (∀ j : Nat, j < k → 0 < w - 10 * (j : Int) ∧
      ∀ i, i < state.link_frequencies_num ∨ i = cur →
        ¬ link_feasible state format i (w - 10 * (j : Int))) ∧
    ((r.width ≤ 0 ∧ (k = 0 → r.freq = fr ∧ r.fifo_size = f0) ∧
        (0 < k → r.freq = state.link_frequencies_num)) ∨
     (0 < r.width ∧ adjust_fifo_at state format cur r.width = some (0, r.fifo_size) ∧
        (k = 0 → r.freq = fr) ∧ (0 < k → r.freq = state.link_frequencies_num)) ∨
     (0 < r.width ∧ ¬ link_feasible state format cur r.width ∧
        r.freq < state.link_frequencies_num ∧ r.freq ≠ cur ∧
        adjust_fifo_at state format r.freq r.width = some (0, r.fifo_size) ∧
        ∀ j, j < r.freq → ¬ link_feasible state format j r.width))

/-- Every link setting of the table can be evaluated by
`tc358746_adjust_fifo_size`, and the current link-frequency index lies in the
table: no call of the search divides by zero or leaves the array. -/
def search_defined (state : tc358746_state) (format : tc358746_mbus_fmt) : Prop :=
  state.link_freq < state.link_frequencies_num ∧
  ∀ i, i < state.link_frequencies_num →
    ∃ s, state.link_freq_settings[i]? = some s ∧ periods_defined state format s

/-- The horizontal blanking time `pclk_period_ps * hblank` (as the code
computes it) does not exceed the HS-LP-HS transition time of the link setting,
and that time fits in 31 bits. -/
def blank_too_short (state : tc358746_state) (csi_settings : tc358746_csi_param) : Prop :=
  u32 (1000000000 / (state.pclk / 1000) * state.hblank) ≤ csi_settings.csi_hs_lp_hs_ps ∧
  csi_settings.csi_hs_lp_hs_ps < 2 ^ 31

/-- The link setting is one that `tc358746_set_lane_settings` accepts: its
per-lane rate lies in `[62.5 Mbit/s, 1 Gbit/s]` and its `speed_range` is the
class of that rate. -/
def accepted_link (s : tc358746_csi_param) : Prop :=
  62500000 ≤ s.speed_per_lane ∧ s.speed_per_lane ≤ 1000000000 ∧
  (500000000 < s.speed_per_lane → s.speed_range = 0) ∧
  (250000000 < s.speed_per_lane → s.speed_per_lane ≤ 500000000 → s.speed_range = 1) ∧
  (125000000 < s.speed_per_lane → s.speed_per_lane ≤ 250000000 → s.speed_range = 2) ∧
  (s.speed_per_lane ≤ 125000000 → s.speed_range = 3)

instance (s : tc358746_csi_param) : Decidable (accepted_link s) := by
  unfold accepted_link; infer_instance

instance (state : tc358746_state) (csi_settings : tc358746_csi_param) :
    Decidable (blank_too_short state csi_settings) := by
  unfold blank_too_short; infer_instance

instance (state : tc358746_state) (format : tc358746_mbus_fmt)
    (csi_settings : tc358746_csi_param) : Decidable (periods_defined state format csi_settings) := by
  unfold periods_defined; infer_instance

/-! ## Sample configurations -/

/-- Sample values for the constants of `tc358746.h`. -/
def sample_header : tc358746_h :=
  { DATAFMT_PDFMT_YCBCRFMT_422_8_BIT := 6, DATAFMT_PDFMT_YCBCRFMT_422_10_BIT := 9,
    DATAFMT_PDFMT_YCBCRFMT_444 := 10, CONFCTL_PDATAF_MODE0 := 0, CONFCTL_PDATAF_MODE1 := 1,
    CONFCTL_PDATAF_MODE2 := 2 }

/-- The table entry for `MEDIA_BUS_FMT_UYVY8_2X8`. -/
def sample_uyvy8_2x8 : tc358746_mbus_fmt :=
  { code := MEDIA_BUS_FMT_UYVY8_2X8, bus_width := 8, bpp := 16,
    pdformat := sample_header.DATAFMT_PDFMT_YCBCRFMT_422_8_BIT,
    pdataf := sample_header.CONFCTL_PDATAF_MODE0, ppp := 2, csitx_only := false }

/-- A link setting of 432 Mbit/s per lane on 4 lanes with continuous clock, as
`tc358746_set_lane_settings` (PLL input clock 4 MHz) and
`tc358746_calculate_csi_txtimings` leave it. -/
def sample_link_432 : tc358746_csi_param :=
  { speed_range := 1, unit_clk_hz := 2000000, unit_clk_mul := 216,
    speed_per_lane := 432000000, lane_num := 4, is_continuous_clk := true,
    lineinitcnt := 2973, lptxtimecnt := 2, twakeupcnt := 22222, tclk_preparecnt := 2,
    tclk_zerocnt := 15, tclk_trailcnt := 0, tclk_postcnt := 7, ths_preparecnt := 2,
    ths_zerocnt := 0, ths_trailcnt := 1, csi_hs_lp_hs_ps := 888864 }

/-- A probed device with the single link frequency 216 MHz, the default
format, and a video source with pixel clock 74.25 MHz and hblank 280. -/
def sample_state : tc358746_state :=
  { fmt := tc358746_def_fmt, fmt_changed := false, pllinclk_hz := 4000000, pll_prd := 6,
    pll_fbd := 0, vb_fifo := 1, link_freq := 0, link_freq_settings := [sample_link_432],
    link_frequencies := [216000000], link_frequencies_num := 1, pclk := 74250000,
    hblank := 280 }

/-- A request to set the active format of the sink pad to 640x480 UYVY8_2X8. -/
def sample_request : v4l2_subdev_format :=
  { which := V4L2_SUBDEV_FORMAT_ACTIVE, pad := 0, format := tc358746_def_fmt }

/-- A device state as `devm_kzalloc` leaves it: every field zero, no arrays. -/
def sample_zero_state : tc358746_state :=
  { fmt := { width := 0, height := 0, code := 0, field := 0 }, fmt_changed := false,
    pllinclk_hz := 0, pll_prd := 0, pll_fbd := 0, vb_fifo := 0, link_freq := 0,
    link_freq_settings := [], link_frequencies := [], link_frequencies_num := 0,
    pclk := 0, hblank := 0 }

/-- An endpoint with 4 lanes, continuous clock and the link frequency
2,363,483,648 Hz (per-lane rate 4,726,967,296 bit/s). -/
def sample_endpoint_wrapped : v4l2_fwnode_endpoint :=
  { link_frequencies := [2363483648], nr_of_link_frequencies := 1, num_data_lanes := 4,
    flags := V4L2_MBUS_CSI2_CONTINUOUS_CLOCK }

/-- An endpoint with 4 lanes, continuous clock and the link frequencies 216 MHz
(432 Mbit/s per lane) and 25 MHz (50 Mbit/s per lane). -/
def sample_endpoint_mixed : v4l2_fwnode_endpoint :=
  { link_frequencies := [216000000, 25000000], nr_of_link_frequencies := 2,
    num_data_lanes := 4, flags := V4L2_MBUS_CSI2_CONTINUOUS_CLOCK }

/-- A link setting of 62.5 Mbit/s per lane (link frequency 31.25 MHz) on 4
lanes with continuous clock, as `tc358746_set_lane_settings` leaves it for a
PLL input clock of 4 MHz. -/
def sample_link_62m5 : tc358746_csi_param :=
  { csi_param_zero with
    speed_range := 3, unit_clk_hz := 500000, unit_clk_mul := 125,
    speed_per_lane := 62500000, lane_num := 4, is_continuous_clk := true }

/-- A link setting of 200 Mbit/s per lane (link frequency 100 MHz) on 4 lanes
with continuous clock, as `tc358746_set_lane_settings` leaves it for a PLL
input clock of 4 MHz. -/
def sample_link_200 : tc358746_csi_param :=
  { csi_param_zero with
    speed_range := 2, unit_clk_hz := 1000000, unit_clk_mul := 200,
    speed_per_lane := 200000000, lane_num := 4, is_continuous_clk := true }

/-- A link setting of 160 Mbit/s per lane (link frequency 80 MHz) on 4 lanes
with continuous clock, as `tc358746_set_lane_settings` leaves it for a PLL
input clock of 4 MHz. -/
def sample_link_160 : tc358746_csi_param :=
  { csi_param_zero with
    speed_range := 2, unit_clk_hz := 1000000, unit_clk_mul := 160,
    speed_per_lane := 160000000, lane_num := 4, is_continuous_clk := true }

/-- A link setting with a per-lane rate of 1,000,000,008 bit/s, whose byte clock
of 125,000,001 Hz is above the limit. -/
def sample_link_too_fast : tc358746_csi_param :=
  { csi_param_zero with speed_per_lane := 1000000008, lane_num := 4 }

/-- The table entry for `MEDIA_BUS_FMT_UYVY8_1X16`. -/
def sample_uyvy8_1x16 : tc358746_mbus_fmt :=
  { code := MEDIA_BUS_FMT_UYVY8_1X16, bus_width := 16, bpp := 16,
    pdformat := sample_header.DATAFMT_PDFMT_YCBCRFMT_422_8_BIT,
    pdataf := sample_header.CONFCTL_PDATAF_MODE1, ppp := 1, csitx_only := false }

/-- The link setting of 432 Mbit/s per lane on 4 lanes as
`tc358746_set_lane_settings` leaves it (PLL input clock 4 MHz), for either clock
mode, before the timings are synthesized. -/
def scenario_link (is_continuous_clk : Bool) : tc358746_csi_param :=
  { csi_param_zero with
    speed_range := 1, unit_clk_hz := 2000000, unit_clk_mul := 216,
    speed_per_lane := 432000000, lane_num := 4, is_continuous_clk := is_continuous_clk }

/-- The sample device (pixel clock 74.25 MHz, hblank 280) with the single link
setting `s`. -/
def scenario_state (s : tc358746_csi_param) : tc358746_state :=
  { sample_state with link_freq_settings := [s] }

/-- The link setting of 432 Mbit/s per lane on 4 lanes with non-continuous
clock after `tc358746_calculate_csi_txtimings`. -/
def sample_link_432_gated : tc358746_csi_param :=
  { sample_link_432 with is_continuous_clk := false, csi_hs_lp_hs_ps := 3149214 }

/-! ## Lemmas on the FIFO loop -/

theorem fifo_loop_spec (fits : Nat → Bool) (n : Nat) :
    ∀ s, s ≤ fifo_loop fits n s ∧ fifo_loop fits n s ≤ s + n ∧
      (∀ g, s ≤ g → g < fifo_loop fits n s → fits g = false) ∧
      (fifo_loop fits n s < s + n → fits (fifo_loop fits n s) = true) := by
  induction n with
  | zero =>
    intro s
    simp only [fifo_loop]
    refine ⟨le_refl _, le_refl _, ?_, ?_⟩
    · intro g h1 h2; omega
    · intro h; omega
  | succ n ih =>
    intro s
    simp only [fifo_loop]
    by_cases hs : fits s = true
    · rw [if_pos hs]
      refine ⟨le_refl _, by omega, ?_, ?_⟩
      · intro g h1 h2; omega
      · intro _; exact hs
    · rw [if_neg hs]
      obtain ⟨h1, h2, h3, h4⟩ := ih (s + 1)
      refine ⟨by omega, by omega, ?_, ?_⟩
      · intro g hg1 hg2
        by_cases hgs : g = s
        · subst hgs; simpa using hs
        · exact h3 g (by omega) hg2
      · intro h; exact h4 (by omega)

/-- The value of `adjust_fifo_locals` when the divisions are defined. -/
theorem adjust_fifo_locals_defined (state : tc358746_state) (format : tc358746_mbus_fmt)
    (csi : tc358746_csi_param) (width : Int) (hd : periods_defined state format csi) :
    ∃ l, adjust_fifo_locals state format csi width = some l := by
  obtain ⟨h1, h2, h3, _⟩ := hd
  unfold adjust_fifo_locals
  simp only [h1, h2, h3, or_self, if_false]
  exact ⟨_, rfl⟩

/-- Characterisation of `tc358746_adjust_fifo_size` by first feasibility. -/
theorem adjust_fifo_size_char (state : tc358746_state) (format : tc358746_mbus_fmt)
    (csi : tc358746_csi_param) (width : Int) (hd : periods_defined state format csi) :
    ∃ r, tc358746_adjust_fifo_size state format csi width = some r ∧
      1 ≤ r.2 ∧ r.2 ≤ 512 ∧
      (∀ G, 1 ≤ G → G < r.2 → ¬ fifo_feasible state format csi width G) ∧
      (r.2 < 512 → r.1 = 0 ∧ fifo_feasible state format csi width r.2) ∧
      (r.2 = 512 → r.1 = -EINVAL) := by
  obtain ⟨l, hl⟩ := adjust_fifo_locals_defined state format csi width hd
  have hb : format.bus_width ≠ 0 := hd.2.2.2
  obtain ⟨h1, h2, h3, h4⟩ :=
    fifo_loop_spec (fifo_fits format csi l width) (TC358746_MAX_FIFO_SIZE - 1) 1
  have hM : TC358746_MAX_FIFO_SIZE = 512 := rfl
  rw [hM] at h1 h2 h3 h4
  refine ⟨_, by simp only [tc358746_adjust_fifo_size, hl, hb, if_false]; rfl, ?_⟩
  simp only [hM]
  refine ⟨h1, by omega, ?_, ?_, ?_⟩
  · rintro G hG1 hG2 ⟨l2, hl2, hf⟩
    rw [hl] at hl2
    cases hl2
    rw [h3 G hG1 hG2] at hf
    exact Bool.noConfusion hf
  · intro hlt
    refine ⟨by rw [if_neg (by omega)], l, hl, h4 (by omega)⟩
  · intro heq
    rw [if_pos heq]

/-! ## C1: the FIFO search returns the smallest feasible depth -/

/-- C1: when the period divisions are defined, `tc358746_adjust_fifo_size`
returns success with `fifo_size = F` exactly when `F` is the smallest value in
`1..511` satisfying the three feasibility inequalities as the code evaluates
them, and it returns `-EINVAL` with `fifo_size = 512` exactly when no value in
`1..511` satisfies them. -/
theorem adjust_fifo_size_smallest_feasible (state : tc358746_state)
    (format : tc358746_mbus_fmt) (csi : tc358746_csi_param) (width : Int)
    (hd : periods_defined state format csi) :
    ∃ r, tc358746_adjust_fifo_size state format csi width = some r ∧
      (∀ F, r = (0, F) ↔
        (1 ≤ F ∧ F ≤ 511 ∧ fifo_feasible state format csi width F ∧
          ∀ G, 1 ≤ G → G < F → ¬ fifo_feasible state format csi width G)) ∧
      (r = (-EINVAL, 512) ↔
        ∀ G, 1 ≤ G → G ≤ 511 → ¬ fifo_feasible state format csi width G) := by
  obtain ⟨⟨e, f⟩, hr, h1, h2, hmin, hlt, heq⟩ := adjust_fifo_size_char state format csi width hd
  simp only at h1 h2 hmin hlt heq
  have hE : (-EINVAL : Int) ≠ 0 := by decide
  refine ⟨(e, f), hr, ?_, ?_⟩
  · intro F
    constructor
    · intro h
      simp only [Prod.mk.injEq] at h
      obtain ⟨he, hf⟩ := h
      subst hf
      have hf512 : f ≠ 512 := fun h512 => hE ((heq h512).symm.trans he)
      have hflt : f < 512 := by omega
      exact ⟨h1, by omega, (hlt hflt).2, hmin⟩
    · rintro ⟨hF1, hF2, hFf, hFmin⟩
      have hfF : f = F := by
        rcases Nat.lt_trichotomy f F with h | h | h
        · exact absurd (hlt (by omega)).2 (hFmin f h1 h)
        · exact h
        · exact absurd hFf (hmin F hF1 h)
      subst hfF
      rw [(hlt (by omega)).1]
  · constructor
    · intro h
      simp only [Prod.mk.injEq] at h
      obtain ⟨_, hf⟩ := h
      subst hf
      intro G hG1 hG2
      exact hmin G hG1 (by omega)
    · intro hno
      have hf : f = 512 := by
        by_contra hne
        have hflt : f < 512 := by omega
        exact hno f h1 (by omega) (hlt hflt).2
      rw [heq hf, hf]

set_option maxRecDepth 100000 in
/-- Witness for C1: the theorem applies to the sample link at width 640. -/
theorem adjust_fifo_size_smallest_feasible_witness :
    periods_defined sample_state sample_uyvy8_2x8 sample_link_432 ∧
    ∃ r, tc358746_adjust_fifo_size sample_state sample_uyvy8_2x8 sample_link_432 640 = some r ∧
      (∀ F, r = (0, F) ↔
        (1 ≤ F ∧ F ≤ 511 ∧ fifo_feasible sample_state sample_uyvy8_2x8 sample_link_432 640 F ∧
          ∀ G, 1 ≤ G → G < F →
            ¬ fifo_feasible sample_state sample_uyvy8_2x8 sample_link_432 640 G)) ∧
      (r = (-EINVAL, 512) ↔
        ∀ G, 1 ≤ G → G ≤ 511 →
          ¬ fifo_feasible sample_state sample_uyvy8_2x8 sample_link_432 640 G) :=
  ⟨by decide,
   adjust_fifo_size_smallest_feasible sample_state sample_uyvy8_2x8 sample_link_432 640
     (by decide)⟩

/-! ## Lemmas on the link-frequency sweep and the width loop -/

theorem freq_sweep_spec (state : tc358746_state) (format : tc358746_mbus_fmt) (cur : Nat)
    (w : Int) (n : Nat) :
    ∀ i f0 b j f, freq_sweep state format cur w n i f0 = some (b, j, f) →
      (b = true → i ≤ j ∧ j < i + n ∧ j ≠ cur ∧
        adjust_fifo_at state format j w = some (0, f) ∧
        ∀ k, i ≤ k → k < j → k ≠ cur → ¬ link_feasible state format k w) ∧
      (b = false → j = i + n ∧
        ∀ k, i ≤ k → k < i + n → k ≠ cur → ¬ link_feasible state format k w) := by
  induction n with
  | zero =>
    intro i f0 b j f h
    simp only [freq_sweep, Option.some.injEq, Prod.mk.injEq] at h
    obtain ⟨hb, hj, _⟩ := h
    subst hb; subst hj
    refine ⟨fun hb => Bool.noConfusion hb, fun _ => ⟨rfl, ?_⟩⟩
    intro k h1 h2; omega
  | succ n ih =>
    intro i f0 b j f h
    rw [freq_sweep] at h
    by_cases hic : i = cur
    · rw [if_pos hic] at h
      obtain ⟨hT, hF⟩ := ih (i + 1) f0 b j f h
      refine ⟨fun hb => ?_, fun hb => ?_⟩
      · obtain ⟨h1, h2, h3, h4, h5⟩ := hT hb
        refine ⟨by omega, by omega, h3, h4, ?_⟩
        intro k hk1 hk2 hk3
        exact h5 k (by omega) hk2 hk3
      · obtain ⟨h1, h2⟩ := hF hb
        refine ⟨by omega, ?_⟩
        intro k hk1 hk2 hk3
        exact h2 k (by omega) (by omega) hk3
    · rw [if_neg hic] at h
      cases hres : adjust_fifo_at state format i w with
      | none => rw [hres] at h; exact Option.noConfusion h
      | some p =>
        obtain ⟨err, fifo⟩ := p
        rw [hres] at h
        simp only at h
        by_cases herr : err = 0
        · rw [if_pos herr] at h
          simp only [Option.some.injEq, Prod.mk.injEq] at h
          obtain ⟨hb, hj, hf⟩ := h
          subst hb; subst hj; subst hf; subst herr
          refine ⟨fun _ => ⟨le_refl _, by omega, hic, hres, ?_⟩, fun hb => Bool.noConfusion hb⟩
          intro k hk1 hk2; omega
        · rw [if_neg herr] at h
          have hnot : ¬ link_feasible state format i w := by
            rintro ⟨F, hF⟩
            rw [hres] at hF
            simp only [Option.some.injEq, Prod.mk.injEq] at hF
            exact herr hF.1
          obtain ⟨hT, hF⟩ := ih (i + 1) fifo b j f h
          refine ⟨fun hb => ?_, fun hb => ?_⟩
          · obtain ⟨h1, h2, h3, h4, h5⟩ := hT hb
            refine ⟨by omega, by omega, h3, h4, ?_⟩
            intro k hk1 hk2 hk3
            by_cases hki : k = i
            · subst hki; exact hnot
            · exact h5 k (by omega) hk2 hk3
          · obtain ⟨h1, h2⟩ := hF hb
            refine ⟨by omega, ?_⟩
            intro k hk1 hk2 hk3
            by_cases hki : k = i
            · subst hki; exact hnot
            · exact h2 k (by omega) (by omega) hk3

theorem width_loop_spec (state : tc358746_state) (format : tc358746_mbus_fmt) (cur : Nat)
    (n : Nat) :
    ∀ w fr f0 r, width_loop state format cur n w fr f0 = some r →
      width_loop_post state format cur w fr f0 r := by
  induction n with
  | zero =>
    intro w fr f0 r h
    simp only [width_loop] at h
    exact Option.noConfusion h
  | succ n ih =>
    intro w fr f0 r h
    rw [width_loop] at h
    by_cases hw : 0 < w
    · rw [if_pos hw] at h
      cases hres : adjust_fifo_at state format cur w with
      | none => rw [hres] at h; exact Option.noConfusion h
      | some p =>
        obtain ⟨err, fifo⟩ := p
        rw [hres] at h
        simp only at h
        by_cases herr : err = 0
        · rw [if_pos herr] at h
          simp only [Option.some.injEq] at h
          subst h; subst herr
          refine ⟨0, by simp, fun j hj => absurd hj (Nat.not_lt_zero j), Or.inr (Or.inl ?_)⟩
          exact ⟨hw, hres, fun _ => rfl, fun h0 => absurd h0 (Nat.lt_irrefl 0)⟩
        · rw [if_neg herr] at h
          have hnot : ¬ link_feasible state format cur w := by
            rintro ⟨F, hF⟩
            rw [hres] at hF
            simp only [Option.some.injEq, Prod.mk.injEq] at hF
            exact herr hF.1
          cases hsw : freq_sweep state format cur w state.link_frequencies_num 0 fifo with
          | none => rw [hsw] at h; exact Option.noConfusion h
          | some q =>
            obtain ⟨b, j, f⟩ := q
            rw [hsw] at h
            obtain ⟨hT, hF⟩ := freq_sweep_spec state format cur w _ 0 fifo b j f hsw
            cases b with
            | true =>
              simp only [Option.some.injEq] at h
              subst h
              obtain ⟨_, h2, h3, h4, h5⟩ := hT rfl
              refine ⟨0, by simp, fun j hj => absurd hj (Nat.not_lt_zero j),
                Or.inr (Or.inr ?_)⟩
              refine ⟨hw, hnot, by simpa using h2, h3, h4, ?_⟩
              intro k hk
              by_cases hkc : k = cur
              · subst hkc; exact hnot
              · exact h5 k (Nat.zero_le k) hk hkc
            | false =>
              simp only at h
              obtain ⟨hj, hall⟩ := hF rfl
              have hj2 : j = state.link_frequencies_num := by omega
              subst hj2
              obtain ⟨k, hk1, hk2, hk3⟩ := ih (w - 10) _ f r h
              refine ⟨k + 1, by rw [hk1]; push_cast; ring, ?_, ?_⟩
              · intro m hm
                cases m with
                | zero =>
                  simp only [Nat.cast_zero, mul_zero, sub_zero]
                  refine ⟨hw, ?_⟩
                  intro i hi
                  by_cases hic : i = cur
                  · subst hic; exact hnot
                  · rcases hi with hi | hi
                    · exact hall i (Nat.zero_le i) (by omega) hic
                    · exact absurd hi hic
                | succ m =>
                  have := hk2 m (by omega)
                  have he : w - 10 * ((m + 1 : Nat) : Int) = w - 10 - 10 * (m : Int) := by
                    push_cast; ring
                  rw [he]
                  exact this
              · rcases hk3 with ⟨h1, h2, h3⟩ | ⟨h1, h2, h3, h4⟩ | h6
                · left
                  refine ⟨h1, fun h0 => absurd h0 (Nat.succ_ne_zero k), fun _ => ?_⟩
                  rcases Nat.eq_zero_or_pos k with hk0 | hkp
                  · exact (h2 hk0).1
                  · exact h3 hkp
                · right; left
                  refine ⟨h1, h2, fun h0 => absurd h0 (Nat.succ_ne_zero k), fun _ => ?_⟩
                  rcases Nat.eq_zero_or_pos k with hk0 | hkp
                  · exact h3 hk0
                  · exact h4 hkp
                · right; right; exact h6
    · rw [if_neg hw] at h
      simp only [Option.some.injEq] at h
      subst h
      refine ⟨0, by simp, fun j hj => absurd hj (Nat.not_lt_zero j), Or.inl ?_⟩
      exact ⟨by simpa using hw, fun _ => ⟨rfl, rfl⟩, fun h0 => absurd h0 (Nat.lt_irrefl 0)⟩

theorem adjust_fifo_at_defined (state : tc358746_state) (format : tc358746_mbus_fmt)
    (hd : search_defined state format) (i : Nat) (hi : i < state.link_frequencies_num)
    (w : Int) : ∃ r, adjust_fifo_at state format i w = some r := by
  obtain ⟨s, hs, hp⟩ := hd.2 i hi
  obtain ⟨r, hr, _⟩ := adjust_fifo_size_char state format s w hp
  exact ⟨r, by simp only [adjust_fifo_at, hs, hr]⟩

theorem freq_sweep_defined (state : tc358746_state) (format : tc358746_mbus_fmt)
    (hd : search_defined state format) (cur : Nat) (w : Int) (n : Nat) :
    ∀ i f0, i + n ≤ state.link_frequencies_num →
      ∃ r, freq_sweep state format cur w n i f0 = some r := by
  induction n with
  | zero => intro i f0 _; exact ⟨_, rfl⟩
  | succ n ih =>
    intro i f0 hle
    rw [freq_sweep]
    by_cases hic : i = cur
    · rw [if_pos hic]; exact ih (i + 1) f0 (by omega)
    · rw [if_neg hic]
      obtain ⟨⟨err, fifo⟩, hr⟩ := adjust_fifo_at_defined state format hd i (by omega) w
      rw [hr]
      simp only
      by_cases herr : err = 0
      · rw [if_pos herr]; exact ⟨_, rfl⟩
      · rw [if_neg herr]; exact ih (i + 1) fifo (by omega)

theorem width_loop_defined (state : tc358746_state) (format : tc358746_mbus_fmt)
    (hd : search_defined state format) (n : Nat) :
    ∀ w fr f0, w ≤ (n : Int) →
      ∃ r, width_loop state format state.link_freq (n + 1) w fr f0 = some r := by
  induction n with
  | zero =>
    intro w fr f0 hw
    rw [width_loop, if_neg (by simpa using hw)]
    exact ⟨_, rfl⟩
  | succ n ih =>
    intro w fr f0 hw
    rw [width_loop]
    by_cases hpos : 0 < w
    · rw [if_pos hpos]
      obtain ⟨⟨err, fifo⟩, hr⟩ := adjust_fifo_at_defined state format hd _ hd.1 w
      rw [hr]
      simp only
      by_cases herr : err = 0
      · rw [if_pos herr]; exact ⟨_, rfl⟩
      · rw [if_neg herr]
        obtain ⟨⟨b, j, f⟩, hsw⟩ :=
          freq_sweep_defined state format hd state.link_freq w state.link_frequencies_num
            0 fifo (by omega)
        rw [hsw]
        cases b with
        | true => exact ⟨_, rfl⟩
        | false =>
          simp only
          exact ih (w - 10) j f (by push_cast at hw; omega)
    · rw [if_neg hpos]; exact ⟨_, rfl⟩

/-- A successful call of `tc358746_adjust_fifo_size` had all divisions defined. -/
theorem periods_defined_of_some (state : tc358746_state) (format : tc358746_mbus_fmt)
    (csi : tc358746_csi_param) (width : Int) (r : Int × Nat)
    (h : tc358746_adjust_fifo_size state format csi width = some r) :
    periods_defined state format csi := by
  unfold tc358746_adjust_fifo_size at h
  cases hl : adjust_fifo_locals state format csi width with
  | none => rw [hl] at h; exact Option.noConfusion h
  | some l =>
    rw [hl] at h
    simp only at h
    by_cases hb : format.bus_width = 0
    · rw [if_pos hb] at h; exact Option.noConfusion h
    · unfold adjust_fifo_locals at hl
      simp only at hl
      split at hl
      · exact Option.noConfusion hl
      · rename_i hne
        simp only [not_or] at hne
        exact ⟨hne.1, hne.2.1, hne.2.2, hb⟩

/-- A successful FIFO search returns the smallest feasible depth. -/
theorem adjust_fifo_size_success (state : tc358746_state) (format : tc358746_mbus_fmt)
    (csi : tc358746_csi_param) (width : Int) (F : Nat)
    (h : tc358746_adjust_fifo_size state format csi width = some (0, F)) :
    1 ≤ F ∧ F ≤ 511 ∧ fifo_feasible state format csi width F ∧
      ∀ G, 1 ≤ G → G < F → ¬ fifo_feasible state format csi width G := by
  have hd := periods_defined_of_some state format csi width _ h
  obtain ⟨r, hr, h1, h2, hmin, hlt, heq⟩ := adjust_fifo_size_char state format csi width hd
  rw [h] at hr
  simp only [Option.some.injEq] at hr
  subst hr
  simp only at h1 h2 hmin hlt heq
  have hne : F ≠ 512 := by
    intro h512
    have := heq h512
    exact absurd this (by decide)
  have hl : F < 512 := by omega
  exact ⟨h1, by omega, (hlt hl).2, hmin⟩

/-! ## C2: the returned index after a width reduction -/

set_option maxRecDepth 100000 in
/-- C2 (evaluation of the code): for width 1600 on the sample device the
current (and only) link setting is infeasible down to width 1570 and feasible at
1560; `tc358746_adjust_timings` then returns the index 1, which equals
`link_frequencies_num` and is not an index of the table, although the returned
FIFO depth 511 was found for index 0. -/
theorem adjust_timings_stale_index :
    tc358746_adjust_timings sample_state sample_uyvy8_2x8 1600 0
        = some { freq := 1, width := 1560, fifo_size := 511 } ∧
      sample_state.link_frequencies_num = 1 ∧
      adjust_fifo_at sample_state sample_uyvy8_2x8 0 1560 = some (0, 511) ∧
      adjust_fifo_at sample_state sample_uyvy8_2x8 1 1560 = none := by
  decide!

/-! ## C3: the current link setting at the requested width is preferred -/

/-- C3: if the currently active link setting is feasible at the requested width
`W > 0` with FIFO depth `F`, then `tc358746_adjust_timings` returns the current
index, the width `W` and `F`, and `F` is the smallest feasible depth of that
link setting at `W`; nothing is assumed about the other link settings. -/
theorem adjust_timings_prefers_current (state : tc358746_state)
    (format : tc358746_mbus_fmt) (W : Int) (fifo0 : Nat) (csi : tc358746_csi_param)
    (F : Nat) (hW : 0 < W)
    (hcur : state.link_freq_settings[state.link_freq]? = some csi)
    (hf : tc358746_adjust_fifo_size state format csi W = some (0, F)) :
    tc358746_adjust_timings state format W fifo0
        = some { freq := state.link_freq, width := W, fifo_size := F } ∧
      1 ≤ F ∧ F ≤ 511 ∧ fifo_feasible state format csi W F ∧
      ∀ G, 1 ≤ G → G < F → ¬ fifo_feasible state format csi W G := by
  refine ⟨?_, adjust_fifo_size_success state format csi W F hf⟩
  have hat : adjust_fifo_at state format state.link_freq W = some (0, F) := by
    simp only [adjust_fifo_at, hcur, hf]
  simp only [tc358746_adjust_timings]
  rw [width_loop, if_pos hW, hat]
  simp only [if_true]

set_option maxRecDepth 100000 in
/-- Witness for C3: the sample device at width 640. -/
theorem adjust_timings_prefers_current_witness :
    tc358746_adjust_timings sample_state sample_uyvy8_2x8 640 0
        = some { freq := sample_state.link_freq, width := 640, fifo_size := 209 } ∧
      1 ≤ 209 ∧ 209 ≤ 511 ∧
      fifo_feasible sample_state sample_uyvy8_2x8 sample_link_432 640 209 ∧
      ∀ G, 1 ≤ G → G < 209 →
        ¬ fifo_feasible sample_state sample_uyvy8_2x8 sample_link_432 640 G :=
  adjust_timings_prefers_current sample_state sample_uyvy8_2x8 640 0 sample_link_432 209
    (by decide) (by decide) (by decide)

/-! ## C4: first fit over the widths in descending order -/

/-- C4: when `tc358746_adjust_timings` succeeds (output width `> 0`), the
returned width is one of `W, W-10, W-20, ...`, some link setting of the table is
feasible at it, no link setting is feasible at any larger width of that
sequence, and when the current link setting is infeasible at the returned width
the returned index is the smallest index whose link setting is feasible there. -/
theorem adjust_timings_first_fit (state : tc358746_state) (format : tc358746_mbus_fmt)
    (W : Int) (fifo0 : Nat) (r : timings_result)
    (hcur : state.link_freq < state.link_frequencies_num)
    (h : tc358746_adjust_timings state format W fifo0 = some r) (hs : 0 < r.width) :
    (∃ k : Nat, r.width = W - 10 * (k : Int)) ∧
      any_feasible state format r.width ∧
      (∀ k : Nat, r.width < W - 10 * (k : Int) →
        ¬ any_feasible state format (W - 10 * (k : Int))) ∧
      (¬ link_feasible state format state.link_freq r.width →
        r.freq < state.link_frequencies_num ∧ link_feasible state format r.freq r.width ∧
        ∀ j, j < r.freq → ¬ link_feasible state format j r.width) := by
  obtain ⟨k, hk1, hk2, hk3⟩ := width_loop_spec state format state.link_freq _ W _ fifo0 r h
  refine ⟨⟨k, hk1⟩, ?_, ?_, ?_⟩
  · rcases hk3 with ⟨h1, _⟩ | ⟨_, h2, _⟩ | ⟨_, _, h3, _, h5, _⟩
    · omega
    · exact ⟨state.link_freq, hcur, _, h2⟩
    · exact ⟨r.freq, h3, _, h5⟩
  · rintro m hm ⟨i, hi, hfe⟩
    have hmk : m < k := by
      by_contra hge
      have : (k : Int) ≤ (m : Int) := by exact_mod_cast Nat.le_of_not_lt hge
      omega
    exact (hk2 m hmk).2 i (Or.inl hi) hfe
  · intro hnot
    rcases hk3 with ⟨h1, _⟩ | ⟨_, h2, _⟩ | ⟨_, _, h3, _, h5, h6⟩
    · omega
    · exact absurd ⟨_, h2⟩ hnot
    · exact ⟨h3, ⟨_, h5⟩, h6⟩

set_option maxRecDepth 100000 in
/-- Witness for C4: the sample device at width 640. -/
theorem adjust_timings_first_fit_witness :
    (∃ k : Nat, (640 : Int) = 640 - 10 * (k : Int)) ∧
      any_feasible sample_state sample_uyvy8_2x8 640 ∧
      (∀ k : Nat, (640 : Int) < 640 - 10 * (k : Int) →
        ¬ any_feasible sample_state sample_uyvy8_2x8 (640 - 10 * (k : Int))) ∧
      (¬ link_feasible sample_state sample_uyvy8_2x8 sample_state.link_freq 640 →
        0 < sample_state.link_frequencies_num ∧
        link_feasible sample_state sample_uyvy8_2x8 0 640 ∧
        ∀ j, j < 0 → ¬ link_feasible sample_state sample_uyvy8_2x8 j 640) :=
  adjust_timings_first_fit sample_state sample_uyvy8_2x8 640 0
    { freq := 0, width := 640, fifo_size := 209 } (by decide) (by decide) (by decide)

/-! ## C5: exhaustion of the search -/

/-- C5: for a requested width `W > 0` on a device whose link settings can all be
evaluated, `tc358746_adjust_timings` returns (the search terminates); it ends
with output width `≤ 0` exactly when no link setting of the table is feasible at
any of the widths `W, W-10, ... > 0`, and that output width is
`W - 10 * ceil(W / 10)`. -/
theorem adjust_timings_exhausted_iff (state : tc358746_state) (format : tc358746_mbus_fmt)
    (W : Int) (fifo0 : Nat) (hW : 0 < W) (hd : search_defined state format) :
    ∃ r, tc358746_adjust_timings state format W fifo0 = some r ∧
      (r.width ≤ 0 ↔
        ∀ k : Nat, 0 < W - 10 * (k : Int) →
          ¬ any_feasible state format (W - 10 * (k : Int))) ∧
      (r.width ≤ 0 → r.width = W - 10 * ((W + 9) / 10)) := by
  obtain ⟨r, hr⟩ :=
    width_loop_defined state format hd W.toNat W state.link_freq fifo0 (Int.self_le_toNat W)
  refine ⟨r, hr, ?_⟩
  obtain ⟨k, hk1, hk2, hk3⟩ := width_loop_spec state format state.link_freq _ W _ fifo0 r hr
  refine ⟨⟨?_, ?_⟩, ?_⟩
  · rintro hle m hm ⟨i, hi, hfe⟩
    have hmk : m < k := by
      by_contra hge
      have : (k : Int) ≤ (m : Int) := by exact_mod_cast Nat.le_of_not_lt hge
      omega
    exact (hk2 m hmk).2 i (Or.inl hi) hfe
  · intro hno
    by_contra hpos
    have hpos2 : 0 < W - 10 * (k : Int) := by omega
    rcases hk3 with ⟨h1, _⟩ | ⟨_, h2, _⟩ | ⟨_, _, h3, _, h5, _⟩
    · omega
    · exact hno k hpos2 ⟨state.link_freq, hd.1, _, hk1 ▸ h2⟩
    · exact hno k hpos2 ⟨r.freq, h3, _, hk1 ▸ h5⟩
  · intro hle
    have hkpos : 0 < k := by
      rcases Nat.eq_zero_or_pos k with h0 | hp
      · subst h0; simp only [Nat.cast_zero, mul_zero, sub_zero] at hk1; omega
      · exact hp
    have hprev := (hk2 (k - 1) (by omega)).1
    have hc : ((k - 1 : Nat) : Int) = (k : Int) - 1 := by omega
    rw [hc] at hprev
    omega

set_option maxRecDepth 100000 in
/-- Witness for C5: the sample device at width 640. -/
theorem adjust_timings_exhausted_iff_witness :
    ∃ r, tc358746_adjust_timings sample_state sample_uyvy8_2x8 640 0 = some r ∧
      (r.width ≤ 0 ↔
        ∀ k : Nat, 0 < (640 : Int) - 10 * (k : Int) →
          ¬ any_feasible sample_state sample_uyvy8_2x8 (640 - 10 * (k : Int))) ∧
      (r.width ≤ 0 → r.width = 640 - 10 * ((640 + 9) / 10)) :=
  adjust_timings_exhausted_iff sample_state sample_uyvy8_2x8 640 0 (by decide)
    ⟨by decide, fun i hi =>
      have h0 : i = 0 := Nat.lt_one_iff.mp hi
      h0 ▸ ⟨sample_link_432, rfl, by decide⟩⟩

/-! ## Lemmas on a horizontal blanking that is too short -/

/-- When the blanking time does not exceed the HS-LP-HS transition time (and
that time fits in 31 bits), the loop condition fails for every FIFO depth. -/
theorem fifo_fits_short_blank (format : tc358746_mbus_fmt) (csi : tc358746_csi_param)
    (l : fifo_locals) (width : Int) (f pb : Nat)
    (ht : l.p_htotal_ps = u32 (pb + l.p_hactive_ps)) (hpb : pb ≤ csi.csi_hs_lp_hs_ps)
    (hhs : csi.csi_hs_lp_hs_ps < 2 ^ 31) :
    fifo_fits format csi l width f = false := by
  unfold fifo_fits
  simp only [Bool.and_eq_false_imp, decide_eq_true_eq, decide_eq_false_iff_not, not_lt]
  generalize u32 (u32 (u32 (l.csi_bps_period_ps * format.bpp) * of_int width) +
    u32 (u32 (u32 (f * 32) * l.pclk_period_ps) / format.bus_width +
      u32 (4 * l.csi_hsclk_period_ps))) = c
  rw [ht]
  intro h1
  simp only [Bool.and_eq_true, decide_eq_true_eq] at h1
  obtain ⟨h1, h2⟩ := h1
  unfold to_int usub u32 at *
  norm_num only at *
  split_ifs at * <;> omega

theorem fifo_loop_none (fits : Nat → Bool) (hno : ∀ g, fits g = false) (n : Nat) :
    ∀ s, fifo_loop fits n s = s + n := by
  induction n with
  | zero => intro s; rfl
  | succ n ih =>
    intro s
    rw [fifo_loop, hno s, if_neg (by simp), ih (s + 1)]
    omega

theorem adjust_fifo_size_short_blank (state : tc358746_state) (format : tc358746_mbus_fmt)
    (csi : tc358746_csi_param) (width : Int) (hd : periods_defined state format csi)
    (hs : blank_too_short state csi) :
    tc358746_adjust_fifo_size state format csi width = some (-EINVAL, 512) := by
  obtain ⟨h1, h2, h3, hb⟩ := hd
  have hl : ∃ l, adjust_fifo_locals state format csi width = some l ∧
      l.p_htotal_ps =
        u32 (u32 (1000000000 / (state.pclk / 1000) * state.hblank) + l.p_hactive_ps) := by
    unfold adjust_fifo_locals
    simp only [h1, h2, h3, or_self, if_false]
    exact ⟨_, rfl, rfl⟩
  obtain ⟨l, hl, ht⟩ := hl
  have hno : ∀ g, fifo_fits format csi l width g = false :=
    fun g => fifo_fits_short_blank format csi l width g _ ht hs.1 hs.2
  unfold tc358746_adjust_fifo_size
  rw [hl]
  simp only [hb, if_false]
  rw [fifo_loop_none _ hno]
  rfl

theorem freq_sweep_exhausted (state : tc358746_state) (format : tc358746_mbus_fmt)
    (cur : Nat) (w : Int)
    (hall : ∀ i, i < state.link_frequencies_num →
      adjust_fifo_at state format i w = some (-EINVAL, 512)) (n : Nat) :
    ∀ i, i + n ≤ state.link_frequencies_num →
      freq_sweep state format cur w n i 512 = some (false, i + n, 512) := by
  induction n with
  | zero => intro i _; rfl
  | succ n ih =>
    intro i hle
    rw [freq_sweep]
    have hE : ¬ (-EINVAL : Int) = 0 := by decide
    by_cases hic : i = cur
    · rw [if_pos hic, ih (i + 1) (by omega)]
      simp only [Option.some.injEq, Prod.mk.injEq, true_and, and_true]; omega
    · rw [if_neg hic, hall i (by omega)]
      simp only [if_neg hE]
      rw [ih (i + 1) (by omega)]
      simp only [Option.some.injEq, Prod.mk.injEq, true_and, and_true]; omega

theorem width_loop_exhausted (state : tc358746_state) (format : tc358746_mbus_fmt)
    (hcur : state.link_freq < state.link_frequencies_num)
    (hall : ∀ i w, i < state.link_frequencies_num →
      adjust_fifo_at state format i w = some (-EINVAL, 512)) (n : Nat) :
    ∀ w fr f0, 0 < w → w ≤ (n : Int) →
      width_loop state format state.link_freq (n + 1) w fr f0
        = some { freq := state.link_frequencies_num, width := w - 10 * ((w + 9) / 10),
                 fifo_size := 512 } := by
  induction n with
  | zero => intro w fr f0 h1 h2; simp only [Nat.cast_zero] at h2; omega
  | succ n ih =>
    intro w fr f0 h1 h2
    have hE : ¬ (-EINVAL : Int) = 0 := by decide
    rw [width_loop, if_pos h1, hall _ w hcur]
    simp only [if_neg hE]
    rw [freq_sweep_exhausted state format state.link_freq w (fun i hi => hall i w hi)
      state.link_frequencies_num 0 (by omega)]
    simp only [Nat.zero_add]
    by_cases hw : 0 < w - 10
    · rw [ih (w - 10) _ 512 hw (by push_cast at h2; omega)]
      simp only [Option.some.injEq, timings_result.mk.injEq, true_and, and_true]
      omega
    · rw [width_loop, if_neg hw]
      simp only [Option.some.injEq, timings_result.mk.injEq, true_and, and_true]
      omega

/-- With a blanking that is too short for every link setting the search is
exhausted: the returned index is `link_frequencies_num`, the width is not
positive and the FIFO depth is 512. -/
theorem adjust_timings_short_blank (state : tc358746_state) (format : tc358746_mbus_fmt)
    (W : Int) (fifo0 : Nat) (hW : 0 < W) (hd : search_defined state format)
    (hs : ∀ (i : Nat) (s : tc358746_csi_param),
      state.link_freq_settings[i]? = some s → blank_too_short state s) :
    tc358746_adjust_timings state format W fifo0
      = some { freq := state.link_frequencies_num, width := W - 10 * ((W + 9) / 10),
               fifo_size := 512 } := by
  have hall : ∀ i w, i < state.link_frequencies_num →
      adjust_fifo_at state format i w = some (-EINVAL, 512) := by
    intro i w hi
    obtain ⟨s, hsi, hp⟩ := hd.2 i hi
    simp only [adjust_fifo_at, hsi]
    exact adjust_fifo_size_short_blank state format s w hp (hs i s hsi)
  exact width_loop_exhausted state format hd.1 hall W.toNat W _ fifo0 hW (Int.self_le_toNat W)

/-! ## C6: an exhausted search in `tc358746_set_fmt` -/

theorem format_supported_of_get (code : Nat) (l : List tc358746_mbus_fmt)
    (f : tc358746_mbus_fmt) (h : get_format_loop code l = some f) :
    format_supported_loop code l = 0 := by
  induction l with
  | nil => exact Option.noConfusion h
  | cons g rest ih =>
    rw [get_format_loop] at h
    rw [format_supported_loop]
    by_cases hg : g.code = code
    · rw [if_pos hg]
    · rw [if_neg hg] at h ⊢; exact ih h

/-- What `tc358746_set_fmt` does on the active format of the sink pad once the
search has returned `t`: it returns 0 and stores the width, the FIFO depth and
`fmt_changed`, whatever the outcome of the search was. -/
theorem set_fmt_active_sink (h : tc358746_h) (state : tc358746_state) (pad_flags : Nat)
    (try_fmt : v4l2_mbus_framefmt) (format : v4l2_subdev_format)
    (sensor_pclk sensor_hblank vb_fifo : Nat) (f : tc358746_mbus_fmt) (t : timings_result)
    (hp : pad_flags ≠ MEDIA_PAD_FL_SOURCE) (hw : format.which = V4L2_SUBDEV_FORMAT_ACTIVE)
    (hf : tc358746_get_format h format.format.code = some f)
    (ht : tc358746_adjust_timings
            { state with pclk := u32 sensor_pclk, hblank := u32 sensor_hblank } f
            (to_int format.format.width) vb_fifo = some t) :
    ∃ r, tc358746_set_fmt h state pad_flags try_fmt format sensor_pclk sensor_hblank vb_fifo
        = some r ∧ r.ret = 0 ∧ r.state.fmt.width = of_int t.width ∧
        r.state.fmt_changed = true ∧ r.state.vb_fifo = u16 t.fifo_size ∧
        (state.link_frequencies_num ≤ t.freq → r.state.link_freq = state.link_freq) := by
  have hsup : tc358746_format_supported h format.format.code = 0 :=
    format_supported_of_get _ _ f hf
  have hact : ¬ (V4L2_SUBDEV_FORMAT_ACTIVE ≠ V4L2_SUBDEV_FORMAT_TRY ∧
      V4L2_SUBDEV_FORMAT_ACTIVE ≠ V4L2_SUBDEV_FORMAT_ACTIVE) := by decide
  unfold tc358746_set_fmt
  simp only [if_neg hp, hw, if_neg hact, hf, Option.isNone_some, Bool.false_eq_true, if_false,
    ht, hsup, ne_eq, not_true_eq_false, if_true]
  refine ⟨_, rfl, rfl, ?_, ?_, ?_, ?_⟩
  · by_cases hfr : t.freq = state.link_freq
    · simp only [hfr, not_true_eq_false, if_false]
    · simp only [hfr, not_false_eq_true, if_true, v4l2_ctrl_s_ctrl]
      split <;> rfl
  · by_cases hfr : t.freq = state.link_freq
    · simp only [hfr, not_true_eq_false, if_false]
    · simp only [hfr, not_false_eq_true, if_true, v4l2_ctrl_s_ctrl]
      split <;> rfl
  · by_cases hfr : t.freq = state.link_freq
    · simp only [hfr, not_true_eq_false, if_false]
    · simp only [hfr, not_false_eq_true, if_true, v4l2_ctrl_s_ctrl]
      split <;> rfl
  · intro hge
    by_cases hfr : t.freq = state.link_freq
    · simp only [hfr, not_true_eq_false, if_false]
    · simp only [hfr, not_false_eq_true, if_true, v4l2_ctrl_s_ctrl]
      rw [if_neg (by simpa using hge)]

set_option maxRecDepth 100000 in
/-- C6 (evaluation of the code): the active sink format 640x480 is requested
while the video source reports hblank 50, for which the only link setting is
infeasible at every width.  `tc358746_set_fmt` returns 0 and stores width 0,
FIFO depth 512 and `fmt_changed = true` (before the call they were 640, 1 and
false); only the link-frequency index keeps its value. -/
theorem set_fmt_exhausted_applies :
    ∃ r, tc358746_set_fmt sample_header sample_state MEDIA_PAD_FL_SINK tc358746_def_fmt
          sample_request 74250000 50 0 = some r ∧
      r.ret = 0 ∧ r.state.fmt.width = 0 ∧ r.state.fmt_changed = true ∧
      r.state.vb_fifo = 512 ∧ r.state.link_freq = 0 ∧
      sample_state.fmt.width = 640 ∧ sample_state.fmt_changed = false ∧
      sample_state.vb_fifo = 1 ∧ sample_state.link_freq = 0 := by
  have hd : search_defined { sample_state with pclk := u32 74250000, hblank := u32 50 }
      sample_uyvy8_2x8 :=
    ⟨by decide, fun i hi =>
      have h0 : i = 0 := Nat.lt_one_iff.mp hi
      h0 ▸ ⟨sample_link_432, rfl, by decide⟩⟩
  have hs : ∀ (i : Nat) (s : tc358746_csi_param),
      ({ sample_state with pclk := u32 74250000, hblank := u32 50 } :
        tc358746_state).link_freq_settings[i]? = some s →
      blank_too_short { sample_state with pclk := u32 74250000, hblank := u32 50 } s := by
    intro i s hi
    cases i with
    | zero =>
      have hs0 : sample_link_432 = s := Option.some.inj hi
      subst hs0
      decide
    | succ i => exact Option.noConfusion hi
  have ht := adjust_timings_short_blank
    { sample_state with pclk := u32 74250000, hblank := u32 50 } sample_uyvy8_2x8 640 0
    (by decide) hd hs
  obtain ⟨r, hr, h1, h2, h3, h4, h5⟩ :=
    set_fmt_active_sink sample_header sample_state MEDIA_PAD_FL_SINK tc358746_def_fmt
      sample_request 74250000 50 0 sample_uyvy8_2x8 _ (by decide) rfl rfl ht
  exact ⟨r, hr, h1, h2, h3, h4, h5 (le_refl _), rfl, rfl, rfl, rfl⟩

/-! ## C7 and C8: the PLL derivation of `tc358746_probe_fw` -/

/-- For a reference clock in `[6 MHz, 40 MHz]` the pre-divider lies in `[2, 10]`. -/
theorem pll_prediv_bounds (refclk : Nat) (h1 : 6000000 ≤ refclk) (h2 : refclk ≤ 40000000) :
    2 ≤ u8 (DIV_ROUND_CLOSEST refclk 4000000) ∧ u8 (DIV_ROUND_CLOSEST refclk 4000000) ≤ 10 := by
  unfold u8 DIV_ROUND_CLOSEST u32
  omega

/-- For a reference clock in `[6 MHz, 40 MHz]` the rounded PLL input clock never
exceeds 40 MHz. -/
theorem pllinclk_le (refclk : Nat) (h1 : 6000000 ≤ refclk) (h2 : refclk ≤ 40000000) :
    DIV_ROUND_CLOSEST refclk (u8 (DIV_ROUND_CLOSEST refclk 4000000)) ≤ 40000000 := by
  obtain ⟨hp1, hp2⟩ := pll_prediv_bounds refclk h1 h2
  generalize u8 (DIV_ROUND_CLOSEST refclk 4000000) = p at hp1 hp2
  unfold DIV_ROUND_CLOSEST u32
  have hx : (refclk + p / 2) % 2 ^ 32 = refclk + p / 2 := Nat.mod_eq_of_lt (by omega)
  rw [hx]
  calc (refclk + p / 2) / p ≤ (refclk + p / 2) / 2 := Nat.div_le_div_left hp1 (by decide)
    _ ≤ 40000000 := by omega

/-- A rate below `2^32` is stored in the `unsigned int refclk` unchanged. -/
theorem u32_of_lt (x : Nat) (h : x < 2 ^ 32) : u32 x = x := by
  unfold u32; exact Nat.mod_eq_of_lt h

/-- The PLL derivation sees only the low 32 bits of the clock rate. -/
theorem probe_fw_pll_narrow (state : tc358746_state) (rate : Nat) :
    probe_fw_pll state rate = probe_fw_pll state (u32 rate) := by
  have h : u32 (u32 rate) = u32 rate := by unfold u32; omega
  unfold probe_fw_pll
  rw [h]

/-- C7 (amended): for a reference clock rate below `2^32` Hz, which the
`unsigned int refclk` holds unchanged, the PLL derivation succeeds exactly when
the rate lies in `[6 MHz, 40 MHz]` and its rounded input clock
`DIV_ROUND_CLOSEST(refclk, prediv)`, with
`prediv = DIV_ROUND_CLOSEST(refclk, 4 MHz)`, is at least 4 MHz; on success the
pre-divider lies in `[1, 16]` and the PLL input clock in `[4 MHz, 40 MHz]`;
every other such reference clock, in particular every one outside
`[6 MHz, 40 MHz]`, fails with `-EINVAL`. -/
theorem probe_fw_pll_range (state : tc358746_state) (refclk : Nat)
    (hfit : refclk < 2 ^ 32) :
    ((probe_fw_pll state refclk).1 = 0 ↔
      (6000000 ≤ refclk ∧ refclk ≤ 40000000 ∧
        4000000 ≤ DIV_ROUND_CLOSEST refclk (u8 (DIV_ROUND_CLOSEST refclk 4000000)))) ∧
    ((probe_fw_pll state refclk).1 = 0 →
      1 ≤ (probe_fw_pll state refclk).2.pll_prd ∧ (probe_fw_pll state refclk).2.pll_prd ≤ 16 ∧
      4000000 ≤ (probe_fw_pll state refclk).2.pllinclk_hz ∧
      (probe_fw_pll state refclk).2.pllinclk_hz ≤ 40000000) ∧
    ((probe_fw_pll state refclk).1 ≠ 0 → (probe_fw_pll state refclk).1 = -EINVAL) ∧
    (refclk < 6000000 ∨ 40000000 < refclk → (probe_fw_pll state refclk).1 = -EINVAL) := by
  have hE : (-EINVAL : Int) ≠ 0 := by decide
  have hu := u32_of_lt refclk hfit
  by_cases hr : refclk < 6000000 ∨ 40000000 < refclk
  · have hv : probe_fw_pll state refclk = (-EINVAL, state) := by
      unfold probe_fw_pll; simp only [hu, if_pos hr]
    rw [hv]
    exact ⟨⟨fun h => absurd h hE, fun h => absurd hr (by omega)⟩, fun h => absurd h hE,
      fun _ => rfl, fun _ => rfl⟩
  · have h1 : 6000000 ≤ refclk := by omega
    have h2 : refclk ≤ 40000000 := by omega
    obtain ⟨hp1, hp2⟩ := pll_prediv_bounds refclk h1 h2
    have hle := pllinclk_le refclk h1 h2
    have hp : ¬ (u8 (DIV_ROUND_CLOSEST refclk 4000000) < 1 ∨
        16 < u8 (DIV_ROUND_CLOSEST refclk 4000000)) := by omega
    by_cases hc : DIV_ROUND_CLOSEST refclk (u8 (DIV_ROUND_CLOSEST refclk 4000000)) < 4000000 ∨
        40000000 < DIV_ROUND_CLOSEST refclk (u8 (DIV_ROUND_CLOSEST refclk 4000000))
    · have hv : probe_fw_pll state refclk =
          (-EINVAL, { state with pll_prd := u8 (DIV_ROUND_CLOSEST refclk 4000000) }) := by
        unfold probe_fw_pll; simp only [hu, if_neg hr, if_neg hp, if_pos hc]
      rw [hv]
      exact ⟨⟨fun h => absurd h hE, fun h => absurd hc (by omega)⟩, fun h => absurd h hE,
        fun _ => rfl, fun h => absurd h hr⟩
    · have hv : probe_fw_pll state refclk =
          (0, { state with
            pll_prd := u8 (DIV_ROUND_CLOSEST refclk 4000000)
            pllinclk_hz :=
              DIV_ROUND_CLOSEST refclk (u8 (DIV_ROUND_CLOSEST refclk 4000000)) }) := by
        unfold probe_fw_pll; simp only [hu, if_neg hr, if_neg hp, if_neg hc]
      rw [hv]
      refine ⟨⟨fun _ => ⟨h1, h2, by omega⟩, fun _ => rfl⟩, fun _ => ?_,
        fun h => absurd rfl h, fun h => absurd h hr⟩
      show 1 ≤ u8 (DIV_ROUND_CLOSEST refclk 4000000) ∧
        u8 (DIV_ROUND_CLOSEST refclk 4000000) ≤ 16 ∧
        4000000 ≤ DIV_ROUND_CLOSEST refclk (u8 (DIV_ROUND_CLOSEST refclk 4000000)) ∧
        DIV_ROUND_CLOSEST refclk (u8 (DIV_ROUND_CLOSEST refclk 4000000)) ≤ 40000000
      exact ⟨by omega, by omega, by omega, hle⟩

/-- Witness for C7: the amended statement at the reference clock 24 MHz. -/
theorem probe_fw_pll_range_witness :
    (probe_fw_pll sample_state 24000000).1 = 0 ∧
      1 ≤ (probe_fw_pll sample_state 24000000).2.pll_prd ∧
      (probe_fw_pll sample_state 24000000).2.pll_prd ≤ 16 ∧
      4000000 ≤ (probe_fw_pll sample_state 24000000).2.pllinclk_hz ∧
      (probe_fw_pll sample_state 24000000).2.pllinclk_hz ≤ 40000000 :=
  have h0 : (probe_fw_pll sample_state 24000000).1 = 0 :=
    (probe_fw_pll_range sample_state 24000000 (by decide)).1.mpr (by decide)
  ⟨h0, (probe_fw_pll_range sample_state 24000000 (by decide)).2.1 h0⟩

/-- C7 (counterexample): the reference clocks 6 MHz and 30 MHz lie in
`[6 MHz, 40 MHz]`, yet the PLL derivation fails for them: the rounded
pre-dividers 2 and 8 give input clocks of 3 MHz and 3.75 MHz.  And the rate
4,318,967,296 Hz (`2^32 + 24 MHz`) lies outside `[6 MHz, 40 MHz]`, yet the
derivation succeeds for it, with the results of 24 MHz: line 1619 keeps only
the low 32 bits of the rate. -/
theorem probe_fw_pll_fails_in_range :
    (6000000 ≤ 6000000 ∧ 6000000 ≤ 40000000 ∧
      (probe_fw_pll sample_state 6000000).1 = -EINVAL) ∧
    (6000000 ≤ 30000000 ∧ 30000000 ≤ 40000000 ∧
      (probe_fw_pll sample_state 30000000).1 = -EINVAL) ∧
    (40000000 < 4318967296 ∧ 4318967296 = 2 ^ 32 + 24000000 ∧
      probe_fw_pll sample_state 4318967296
        = (0, { sample_state with pll_prd := 6, pllinclk_hz := 4000000 })) := by
  decide

/-- C8: with a 27 MHz reference clock the derivation computes pre-divider 7 and
the input clock 3,857,143 Hz, which is below 4 MHz, and fails with `-EINVAL`
(the pre-divider is already stored); with 24 MHz it computes pre-divider 6 and
exactly 4,000,000 Hz and succeeds. -/
theorem probe_fw_pll_27_and_24_mhz (state : tc358746_state) :
    u8 (DIV_ROUND_CLOSEST 27000000 4000000) = 7 ∧
    DIV_ROUND_CLOSEST 27000000 7 = 3857143 ∧ 3857143 < 4000000 ∧
    probe_fw_pll state 27000000 = (-EINVAL, { state with pll_prd := 7 }) ∧
    u8 (DIV_ROUND_CLOSEST 24000000 4000000) = 6 ∧
    DIV_ROUND_CLOSEST 24000000 6 = 4000000 ∧
    probe_fw_pll state 24000000 = (0, { state with pll_prd := 6, pllinclk_hz := 4000000 }) := by
  refine ⟨by decide, by decide, by decide, ?_, by decide, by decide, ?_⟩ <;> rfl

/-! ## Lemmas on the timing synthesis -/

theorem shiftRight_three (x : Nat) : x >>> 3 = x / 8 := by
  rw [Nat.shiftRight_eq_div_pow]

theorem shiftRight_one (x : Nat) : x >>> 1 = x / 2 := by
  rw [Nat.shiftRight_eq_div_pow]

/-- The HS byte clock period in picoseconds lies in `[8000, 500000000]` for a
byte clock in `[2000, 125000000]` Hz. -/
theorem hsclk_period_bounds (hsclk : Nat) (h1 : 2000 ≤ hsclk) (h2 : hsclk ≤ 125000000) :
    8000 ≤ 1000000000 / (hsclk / 1000) ∧ 1000000000 / (hsclk / 1000) ≤ 500000000 := by
  have hx1 : 2 ≤ hsclk / 1000 := by omega
  have hx2 : hsclk / 1000 ≤ 125000 := by omega
  generalize hsclk / 1000 = x at hx1 hx2
  constructor
  · rw [Nat.le_div_iff_mul_le (by omega)]; omega
  · calc 1000000000 / x ≤ 1000000000 / 2 := Nat.div_le_div_left hx1 (by decide)
      _ = 500000000 := by norm_num

/-- The LP-TX count: `DIV_ROUND_UP(55000, p)` lies in `[1, 7]` for a byte clock
period `p` in `[8000, 500000000]` ps. -/
theorem lptxtime_bounds (p : Nat) (h1 : 8000 ≤ p) (h2 : p ≤ 500000000) :
    1 ≤ DIV_ROUND_UP (TC358746_LPTXTIME_MIN_NS * 1000) p ∧
      DIV_ROUND_UP (TC358746_LPTXTIME_MIN_NS * 1000) p ≤ 7 := by
  have hv : DIV_ROUND_UP (TC358746_LPTXTIME_MIN_NS * 1000) p = (54999 + p) / p := by
    have hn : usub (u32 (TC358746_LPTXTIME_MIN_NS * 1000 + p)) 1 = 54999 + p := by
      unfold usub u32 TC358746_LPTXTIME_MIN_NS; omega
    unfold DIV_ROUND_UP
    rw [hn]
  rw [hv]
  constructor
  · exact Nat.div_pos (by omega) (by omega)
  · have : (54999 + p) / p < 8 := by
      rw [Nat.div_lt_iff_lt_mul (by omega)]; omega
    omega

/-- The divisor of the wake-up count is not zero. -/
theorem wakeup_div_ne_zero (p : Nat) (h1 : 8000 ≤ p) (h2 : p ≤ 500000000) :
    u32 (p / 1000 *
      u32 (usub (DIV_ROUND_UP (TC358746_LPTXTIME_MIN_NS * 1000) p) 1 + 1)) ≠ 0 := by
  obtain ⟨hq1, hq2⟩ := lptxtime_bounds p h1 h2
  generalize DIV_ROUND_UP (TC358746_LPTXTIME_MIN_NS * 1000) p = q at hq1 hq2
  have hq : u32 (usub q 1 + 1) = q := by unfold usub u32; omega
  rw [hq]
  have ht1 : 8 ≤ p / 1000 := by omega
  have ht2 : p / 1000 ≤ 500000 := by omega
  generalize p / 1000 = t at ht1 ht2
  have hlo : 1 ≤ t * q := Nat.mul_pos (by omega) (by omega)
  have hhi : t * q ≤ 500000 * 7 := Nat.mul_le_mul ht2 hq2
  unfold u32
  rw [Nat.mod_eq_of_lt (by omega)]
  omega

/-- The result of `tc358746_calculate_csi_txtimings` for a per-lane rate of at
least 16 kbit/s: an error that leaves the link setting unchanged when the byte
clock exceeds 125 MHz, success otherwise; no division divides by zero. -/
theorem calculate_csi_txtimings_result (s : tc358746_csi_param)
    (h : 16000 ≤ s.speed_per_lane) :
    (125000000 < s.speed_per_lane >>> 3 →
      tc358746_calculate_csi_txtimings s = some (-EINVAL, s)) ∧
    (s.speed_per_lane >>> 3 ≤ 125000000 →
      ∃ s', tc358746_calculate_csi_txtimings s = some (0, s')) := by
  constructor
  · intro hgt
    unfold tc358746_calculate_csi_txtimings
    simp only [if_pos hgt]
  · intro hle
    have h1 : ¬ 125000000 < s.speed_per_lane >>> 3 := by omega
    have h8 := shiftRight_three s.speed_per_lane
    have h2 : ¬ (s.speed_per_lane >>> 3 >>> 1 = 0 ∨ s.speed_per_lane >>> 3 / 1000 = 0 ∨
        s.speed_per_lane / 1000 = 0) := by
      rw [shiftRight_one, h8]; omega
    obtain ⟨hp1, hp2⟩ :=
      hsclk_period_bounds (s.speed_per_lane >>> 3) (by rw [h8]; omega) hle
    have h3 : ¬ (DIV_ROUND_CLOSEST 1000000000 (s.speed_per_lane >>> 3 >>> 1) = 0 ∨
        1000000000 / (s.speed_per_lane >>> 3 / 1000) = 0) := by
      have hf1 : 1000 ≤ s.speed_per_lane >>> 3 >>> 1 := by rw [shiftRight_one, h8]; omega
      have hf2 : s.speed_per_lane >>> 3 >>> 1 ≤ 62500000 := by rw [shiftRight_one]; omega
      generalize s.speed_per_lane >>> 3 >>> 1 = hf at hf1 hf2
      have : 0 < DIV_ROUND_CLOSEST 1000000000 hf := by
        unfold DIV_ROUND_CLOSEST u32
        rw [Nat.mod_eq_of_lt (by omega)]
        exact Nat.div_pos (by omega) (by omega)
      omega
    have h4 := wakeup_div_ne_zero _ hp1 hp2
    unfold tc358746_calculate_csi_txtimings
    simp only [if_neg h1, if_neg h2, if_neg h3, if_neg h4]
    exact ⟨_, rfl⟩

/-! ## C9: the range check of the per-lane rate -/

/-- C9 (evaluation of the code): the link frequency 2,363,483,648 Hz has the
per-lane rate 4,726,967,296 bit/s, far above 1 Gbit/s, yet
`tc358746_set_lane_settings` (called from `tc358746_probe_fw`) succeeds: the
rate is truncated to 32 bits before the range check and recorded as
432,000,000 bit/s. -/
theorem set_lane_settings_wraps :
    1000000000 < 2 * 2363483648 ∧
    tc358746_probe_fw sample_zero_state 24000000 sample_endpoint_wrapped
      = some (0, { sample_zero_state with
          pll_prd := 6
          pllinclk_hz := 4000000
          link_freq_settings :=
            [{ csi_param_zero with
                speed_range := 1, unit_clk_hz := 2000000, unit_clk_mul := 216,
                speed_per_lane := 432000000, lane_num := 4, is_continuous_clk := true }]
          link_frequencies := [2363483648]
          link_frequencies_num := 1 }) := by
  decide

/-! ## C10: an unsupported link frequency aborts the initialisation -/

theorem set_lane_loop_aborts (fw : v4l2_fwnode_endpoint)
    (hfw : fw.nr_of_link_frequencies ≤ fw.link_frequencies.length) (n : Nat) :
    ∀ (i : Nat) (state : tc358746_state),
      i + n = fw.nr_of_link_frequencies →
      fw.nr_of_link_frequencies ≤ state.link_freq_settings.length →
      fw.nr_of_link_frequencies ≤ state.link_frequencies.length →
      state.pllinclk_hz >>> 3 ≠ 0 →
      (∃ (j : Nat) (f : Nat), i ≤ j ∧ j < i + n ∧ fw.link_frequencies[j]? = some f ∧
        (u32 (2 * f) < 62500000 ∨ 1000000000 < u32 (2 * f))) →
      ∃ st, set_lane_loop fw n i state = some (-EINVAL, st) ∧
        st.link_frequencies_num = state.link_frequencies_num := by
  induction n with
  | zero =>
    rintro i state _ _ _ _ ⟨j, f, h1, h2, _⟩
    omega
  | succ n ih =>
    rintro i state hin hs hl hpll ⟨j, f, hj1, hj2, hjf, hbad⟩
    have hi1 : i < fw.link_frequencies.length := by omega
    have hi2 : i < state.link_freq_settings.length := by omega
    have hi3 : ¬ state.link_frequencies.length ≤ i := by omega
    rw [set_lane_loop, List.getElem?_eq_getElem hi1, List.getElem?_eq_getElem hi2]
    simp only [if_neg hi3]
    by_cases hb : u32 (2 * fw.link_frequencies[i]) < 62500000 ∨
        1000000000 < u32 (2 * fw.link_frequencies[i])
    · rw [if_pos hb]
      exact ⟨_, rfl, rfl⟩
    · rw [if_neg hb]
      have hji : j ≠ i := by
        rintro rfl
        rw [List.getElem?_eq_getElem hi1] at hjf
        have hfe : fw.link_frequencies[j] = f := Option.some.inj hjf
        rw [hfe] at hb
        exact hb hbad
      have hu : ∀ k, k ≤ 3 → ¬ state.pllinclk_hz >>> k = 0 := by
        intro k hk
        rw [shiftRight_three] at hpll
        rw [Nat.shiftRight_eq_div_pow]
        have hk2 : 2 ^ k ≤ 8 := by
          have := Nat.pow_le_pow_right (show 0 < 2 by decide) hk
          simpa using this
        have hpos : 0 < 2 ^ k := Nat.two_pow_pos k
        have : 0 < state.pllinclk_hz / 2 ^ k :=
          Nat.div_pos (by omega) hpos
        omega
      have hu2 : ¬ state.pllinclk_hz >>>
          (if 500000000 < u32 (2 * fw.link_frequencies[i]) then 0
           else if 250000000 < u32 (2 * fw.link_frequencies[i]) then 1
           else if 125000000 < u32 (2 * fw.link_frequencies[i]) then 2
           else 3) = 0 := by
        apply hu
        split_ifs <;> omega
      simp only [if_neg hu2]
      apply ih
      · omega
      · simpa using hs
      · simpa using hl
      · exact hpll
      · exact ⟨j, f, by omega, by omega, hjf, hbad⟩

theorem apply_fw_loop_aborts (n : Nat) :
    ∀ (i : Nat) (state : tc358746_state),
      (∀ j, i ≤ j → j < i + n →
        ∃ s, state.link_freq_settings[j]? = some s ∧ 16000 ≤ s.speed_per_lane) →
      (∃ (j : Nat) (s : tc358746_csi_param), i ≤ j ∧ j < i + n ∧
        state.link_freq_settings[j]? = some s ∧ 125000000 < s.speed_per_lane >>> 3) →
      ∃ st, apply_fw_loop n i state = some (-EINVAL, st) := by
  induction n with
  | zero =>
    rintro i state _ ⟨j, s, h1, h2, _⟩
    omega
  | succ n ih =>
    rintro i state hdef ⟨j, s, hj1, hj2, hjs, hbad⟩
    have hE : (-EINVAL : Int) ≠ 0 := by decide
    obtain ⟨si, hsi, hsi16⟩ := hdef i (le_refl _) (by omega)
    obtain ⟨hgt, hle⟩ := calculate_csi_txtimings_result si hsi16
    rw [apply_fw_loop, hsi]
    by_cases hc : 125000000 < si.speed_per_lane >>> 3
    · simp only [hgt hc, if_pos hE]
      exact ⟨_, rfl⟩
    · obtain ⟨s', hs'⟩ := hle (by omega)
      simp only [hs', ne_eq, not_true_eq_false, if_false]
      have hji : i ≠ j := by
        rintro rfl
        rw [hsi] at hjs
        have : si = s := Option.some.inj hjs
        subst this
        exact hc hbad
      apply ih
      · intro k hk1 hk2
        have hik : i ≠ k := by omega
        simp only [List.getElem?_set_ne hik]
        exact hdef k (by omega) (by omega)
      · refine ⟨j, s, by omega, by omega, ?_, hbad⟩
        simp only [List.getElem?_set_ne hji]
        exact hjs

/-- The three possible results of `probe_fw_pll` for a rate below `2^32`. -/
theorem probe_fw_pll_shape_of_lt (state : tc358746_state) (refclk : Nat)
    (hfit : refclk < 2 ^ 32) :
    ∃ p q : Nat,
      probe_fw_pll state refclk = (-EINVAL, state) ∨
      probe_fw_pll state refclk = (-EINVAL, { state with pll_prd := p }) ∨
      (4000000 ≤ q ∧
        probe_fw_pll state refclk = (0, { state with pll_prd := p, pllinclk_hz := q })) := by
  have hu := u32_of_lt refclk hfit
  refine ⟨u8 (DIV_ROUND_CLOSEST refclk 4000000),
    DIV_ROUND_CLOSEST refclk (u8 (DIV_ROUND_CLOSEST refclk 4000000)), ?_⟩
  by_cases hr : refclk < 6000000 ∨ 40000000 < refclk
  · have hv : probe_fw_pll state refclk = (-EINVAL, state) := by
      unfold probe_fw_pll; simp only [hu, if_pos hr]
    exact Or.inl hv
  · by_cases hp : u8 (DIV_ROUND_CLOSEST refclk 4000000) < 1 ∨
        16 < u8 (DIV_ROUND_CLOSEST refclk 4000000)
    · have hv : probe_fw_pll state refclk = (-EINVAL, state) := by
        unfold probe_fw_pll; simp only [hu, if_neg hr, if_pos hp]
      exact Or.inl hv
    · by_cases hc :
          DIV_ROUND_CLOSEST refclk (u8 (DIV_ROUND_CLOSEST refclk 4000000)) < 4000000 ∨
          40000000 < DIV_ROUND_CLOSEST refclk (u8 (DIV_ROUND_CLOSEST refclk 4000000))
      · have hv : probe_fw_pll state refclk =
            (-EINVAL, { state with pll_prd := u8 (DIV_ROUND_CLOSEST refclk 4000000) }) := by
          unfold probe_fw_pll; simp only [hu, if_neg hr, if_neg hp, if_pos hc]
        exact Or.inr (Or.inl hv)
      · have hv : probe_fw_pll state refclk =
            (0, { state with
              pll_prd := u8 (DIV_ROUND_CLOSEST refclk 4000000)
              pllinclk_hz :=
                DIV_ROUND_CLOSEST refclk (u8 (DIV_ROUND_CLOSEST refclk 4000000)) }) := by
          unfold probe_fw_pll; simp only [hu, if_neg hr, if_neg hp, if_neg hc]
        have hq : 4000000 ≤ DIV_ROUND_CLOSEST refclk (u8 (DIV_ROUND_CLOSEST refclk 4000000)) := by
          omega
        exact Or.inr (Or.inr ⟨hq, hv⟩)

/-- The three possible results of `probe_fw_pll`. -/
theorem probe_fw_pll_shape (state : tc358746_state) (rate : Nat) :
    ∃ p q : Nat,
      probe_fw_pll state rate = (-EINVAL, state) ∨
      probe_fw_pll state rate = (-EINVAL, { state with pll_prd := p }) ∨
      (4000000 ≤ q ∧
        probe_fw_pll state rate = (0, { state with pll_prd := p, pllinclk_hz := q })) := by
  rw [probe_fw_pll_narrow]
  exact probe_fw_pll_shape_of_lt state (u32 rate) (Nat.mod_lt _ (Nat.two_pow_pos 32))

theorem probe_fw_pll_cases (state : tc358746_state) (refclk : Nat) :
    (probe_fw_pll state refclk).2.link_frequencies_num = state.link_frequencies_num ∧
    ((probe_fw_pll state refclk).1 = -EINVAL ∨
      ((probe_fw_pll state refclk).1 = 0 ∧
        4000000 ≤ (probe_fw_pll state refclk).2.pllinclk_hz)) := by
  obtain ⟨p, q, hv | hv | ⟨hq, hv⟩⟩ := probe_fw_pll_shape state refclk
  · rw [hv]; exact ⟨rfl, Or.inl rfl⟩
  · rw [hv]; exact ⟨rfl, Or.inl rfl⟩
  · rw [hv]; exact ⟨rfl, Or.inr ⟨rfl, hq⟩⟩

/-- C10 (amended): an unsupported per-lane rate of one requested link frequency
makes `tc358746_set_lane_settings`, and with it `tc358746_probe_fw`, fail as a
whole with `-EINVAL`, leaving `link_frequencies_num` unchanged; and a link
setting whose byte clock exceeds 125 MHz makes `tc358746_apply_fw` fail as a
whole with `-EINVAL`.  No link setting is dropped in either case. -/
theorem unsupported_link_aborts :
    (∀ (state : tc358746_state) (fw : v4l2_fwnode_endpoint) (j f : Nat),
      fw.nr_of_link_frequencies ≤ fw.link_frequencies.length →
      fw.nr_of_link_frequencies ≤ state.link_freq_settings.length →
      fw.nr_of_link_frequencies ≤ state.link_frequencies.length →
      state.pllinclk_hz >>> 3 ≠ 0 →
      j < fw.nr_of_link_frequencies → fw.link_frequencies[j]? = some f →
      (u32 (2 * f) < 62500000 ∨ 1000000000 < u32 (2 * f)) →
      ∃ st, tc358746_set_lane_settings state fw = some (-EINVAL, st) ∧
        st.link_frequencies_num = state.link_frequencies_num) ∧
    (∀ (state : tc358746_state) (refclk : Nat) (fw : v4l2_fwnode_endpoint) (j f : Nat),
      fw.nr_of_link_frequencies ≤ fw.link_frequencies.length →
      j < fw.nr_of_link_frequencies → fw.link_frequencies[j]? = some f →
      (u32 (2 * f) < 62500000 ∨ 1000000000 < u32 (2 * f)) →
      ∃ st, tc358746_probe_fw state refclk fw = some (-EINVAL, st) ∧
        st.link_frequencies_num = state.link_frequencies_num) ∧
    (∀ (state : tc358746_state) (clk_err : Int) (j : Nat) (s : tc358746_csi_param),
      (∀ i, i < state.link_frequencies_num →
        ∃ s, state.link_freq_settings[i]? = some s ∧ 16000 ≤ s.speed_per_lane) →
      j < state.link_frequencies_num → state.link_freq_settings[j]? = some s →
      125000000 < s.speed_per_lane >>> 3 →
      ∃ st, tc358746_apply_fw state clk_err = some (-EINVAL, st)) := by
  have hE : (-EINVAL : Int) ≠ 0 := by decide
  refine ⟨?_, ?_, ?_⟩
  · intro state fw j f hfw hs hl hpll hj hjf hbad
    exact set_lane_loop_aborts fw hfw _ 0 state (by omega) hs hl hpll
      ⟨j, f, Nat.zero_le j, by omega, hjf, hbad⟩
  · intro state refclk fw j f hfw hj hjf hbad
    obtain ⟨hnum, hc⟩ := probe_fw_pll_cases state refclk
    unfold tc358746_probe_fw
    rcases hc with hc | ⟨hc, hpll⟩
    · have hne : (probe_fw_pll state refclk).1 ≠ 0 := by rw [hc]; exact hE
      simp only [if_pos hne]
      exact ⟨_, by rw [← hc], hnum⟩
    · have hne : ¬ (probe_fw_pll state refclk).1 ≠ 0 := by rw [hc]; simp
      simp only [if_neg hne]
      split_ifs with h1 h2
      · exact ⟨_, rfl, hnum⟩
      · exact ⟨_, rfl, hnum⟩
      · rw [← hnum]
        apply set_lane_loop_aborts fw hfw _ 0 _ (by omega)
        · simp
        · simp
        · show (probe_fw_pll state refclk).2.pllinclk_hz >>> 3 ≠ 0
          rw [shiftRight_three]; omega
        · exact ⟨j, f, Nat.zero_le j, by omega, hjf, hbad⟩
  · intro state clk_err j s hdef hj hjs hbad
    obtain ⟨st, hst⟩ := apply_fw_loop_aborts state.link_frequencies_num 0 state
      (fun i _ hi => hdef i (by omega)) ⟨j, s, Nat.zero_le j, by omega, hjs, hbad⟩
    unfold tc358746_apply_fw
    rw [hst]
    simp only [if_pos hE]
    exact ⟨_, rfl⟩

/-- Witness for C10: the endpoint with the link frequencies 216 MHz and 25 MHz. -/
theorem unsupported_link_aborts_witness :
    ∃ st, tc358746_probe_fw sample_zero_state 24000000 sample_endpoint_mixed
        = some (-EINVAL, st) ∧
      st.link_frequencies_num = sample_zero_state.link_frequencies_num :=
  unsupported_link_aborts.2.1 sample_zero_state 24000000 sample_endpoint_mixed 1 25000000
    (by decide) (by decide) (by decide) (by decide)

/-- C10 (counterexample): of the requested link frequencies 216 MHz and 25 MHz
only the second has an unsupported per-lane rate (50 Mbit/s), yet
`tc358746_probe_fw` fails with `-EINVAL` and no link setting becomes a
candidate (`link_frequencies_num` stays 0). -/
theorem mixed_endpoint_fails_as_a_whole :
    (62500000 ≤ u32 (2 * 216000000) ∧ u32 (2 * 216000000) ≤ 1000000000) ∧
    (tc358746_probe_fw sample_zero_state 24000000 sample_endpoint_mixed).map
        (fun r => (r.1, r.2.link_frequencies_num)) = some (-EINVAL, 0) := by
  decide

/-! ## Consistency of the sample configuration -/

set_option maxRecDepth 100000 in
/-- The sample link setting is what device initialisation computes from a
24 MHz reference clock and the single link frequency 216 MHz on 4 lanes with
continuous clock. -/
theorem sample_link_432_computed :
    (tc358746_probe_fw sample_zero_state 24000000
        { link_frequencies := [216000000], nr_of_link_frequencies := 1, num_data_lanes := 4,
          flags := V4L2_MBUS_CSI2_CONTINUOUS_CLOCK }).bind
      (fun r => (tc358746_apply_fw r.2 0).map (fun a => (a.1, a.2.link_freq_settings)))
      = some (0, [sample_link_432]) := by
  decide

/-! ## C11 and C12: the HS-trail count is not clamped -/

/-- C11 (evaluation of the code): at the supported rate 62.5 Mbit/s per lane
`tc358746_calculate_csi_txtimings` succeeds, but the HS-trail count underflows:
with `spl_p_ps = 16000` and `hsclk_p_ps = 128008` the rounded-up quotient is 3,
so `3 - 5 = -2` over the integers, and the code stores `2^32 - 2`. -/
theorem txtimings_ths_trailcnt_underflows :
    62500000 ≤ sample_link_62m5.speed_per_lane ∧
    sample_link_62m5.speed_per_lane ≤ 1000000000 ∧
    1000000000 / (sample_link_62m5.speed_per_lane / 1000) = 16000 ∧
    1000000000 / ((sample_link_62m5.speed_per_lane >>> 3) / 1000) = 128008 ∧
    ((DIV_ROUND_UP (TC358746_THSTRAIL_MIN_NS * 1000 + 15 * 16000) 128008 : Nat) : Int) - 5
      = -2 ∧
    (tc358746_calculate_csi_txtimings sample_link_62m5).map
        (fun r => (r.1, r.2.ths_trailcnt)) = some (0, 4294967294) ∧
    (tc358746_calculate_csi_txtimings
        { sample_link_62m5 with is_continuous_clk := false }).map
        (fun r => (r.1, r.2.ths_trailcnt)) = some (0, 4294967294) := by
  decide

/-- C12 (evaluation of the code): at the supported rate 200 Mbit/s per lane
(`spl_p_ps = 5000`, `hsclk_p_ps = 40000`) the rounded-up quotients for
`tclk_trailcnt`, `ths_zerocnt` and `ths_trailcnt` are 2, 4 and 4.  The first two
counts are clamped to 0, but `ths_trailcnt` is stored as `4 - 5` modulo `2^32`,
that is 4294967295, and not as `max(0, 4 - 5) = 0`. -/
theorem txtimings_ths_trailcnt_not_clamped :
    DIV_ROUND_UP (TC358746_TCLKTRAIL_MIN_NS * 1000 + 3 * 5000) 40000 = 2 ∧
    DIV_ROUND_UP (TC358746_THSZERO_MIN_NS * 1000 - 5000) 40000 = 4 ∧
    DIV_ROUND_UP (TC358746_THSTRAIL_MIN_NS * 1000 + 15 * 5000) 40000 = 4 ∧
    (tc358746_calculate_csi_txtimings sample_link_200).map
        (fun r => (r.1, r.2.tclk_trailcnt, r.2.ths_zerocnt, r.2.ths_trailcnt))
      = some (0, 0, 0, 4294967295) := by
  decide

/-! ## C18: a pixel clock of 0 Hz -/

/-- C18 (evaluation of the code): with a pixel clock of 0 Hz the first statement
of `tc358746_adjust_fifo_size` divides by `pclk / 1000 = 0`; the function has no
result (`none`), in particular it returns no error code, and neither does
`tc358746_set_fmt` when the video source reports a pixel rate of 0. -/
theorem adjust_fifo_size_pclk_zero :
    tc358746_adjust_fifo_size { sample_state with pclk := 0 } sample_uyvy8_2x8
        sample_link_432 640 = none ∧
    tc358746_set_fmt sample_header sample_state MEDIA_PAD_FL_SINK tc358746_def_fmt
        sample_request 0 280 0 = none := by
  decide

/-! ## C20: the clock-prepare time -/

/-- C20 (evaluation of the code): at the supported rates 62.5 Mbit/s and
160 Mbit/s per lane the byte clock periods are 128008 ps and 50000 ps and the
counts `tclk_preparecnt = lptxtimecnt` are 0 and 1, so the clock-prepare time
`(tclk_preparecnt + 1) * hsclk_p_ps` is 128008 ps and 100000 ps: not below
95 ns. -/
theorem txtimings_prepare_time_too_long :
    1000000000 / ((sample_link_62m5.speed_per_lane >>> 3) / 1000) = 128008 ∧
    (tc358746_calculate_csi_txtimings sample_link_62m5).map
        (fun r => (r.1, r.2.tclk_preparecnt, r.2.lptxtimecnt)) = some (0, 0, 0) ∧
    ¬ (0 + 1) * 128008 < 95000 ∧
    1000000000 / ((sample_link_160.speed_per_lane >>> 3) / 1000) = 50000 ∧
    (tc358746_calculate_csi_txtimings sample_link_160).map
        (fun r => (r.1, r.2.tclk_preparecnt, r.2.lptxtimecnt)) = some (0, 1, 1) ∧
    ¬ (1 + 1) * 50000 < 95000 := by
  decide

/-! ## Further lemmas on the timing synthesis -/

theorem calculate_error_of_gt (s : tc358746_csi_param)
    (h : 125000000 < s.speed_per_lane >>> 3) :
    tc358746_calculate_csi_txtimings s = some (-EINVAL, s) := by
  unfold tc358746_calculate_csi_txtimings
  simp only [if_pos h]

theorem calculate_ok_of_le (s : tc358746_csi_param)
    (hle : ¬ 125000000 < s.speed_per_lane >>> 3) (e : Int) (s' : tc358746_csi_param)
    (h : tc358746_calculate_csi_txtimings s = some (e, s')) : e = 0 := by
  by_cases h2 : s.speed_per_lane >>> 3 >>> 1 = 0 ∨ s.speed_per_lane >>> 3 / 1000 = 0 ∨
      s.speed_per_lane / 1000 = 0
  · unfold tc358746_calculate_csi_txtimings at h
    simp only [if_neg hle, if_pos h2] at h
    exact Option.noConfusion h
  · by_cases h3 : DIV_ROUND_CLOSEST 1000000000 (s.speed_per_lane >>> 3 >>> 1) = 0 ∨
        1000000000 / (s.speed_per_lane >>> 3 / 1000) = 0
    · unfold tc358746_calculate_csi_txtimings at h
      simp only [if_neg hle, if_neg h2, if_pos h3] at h
      exact Option.noConfusion h
    · by_cases h4 : u32 (1000000000 / (s.speed_per_lane >>> 3 / 1000) / 1000 *
          u32 (usub (DIV_ROUND_UP (TC358746_LPTXTIME_MIN_NS * 1000)
            (1000000000 / (s.speed_per_lane >>> 3 / 1000))) 1 + 1)) = 0
      · unfold tc358746_calculate_csi_txtimings at h
        simp only [if_neg hle, if_neg h2, if_neg h3, if_pos h4] at h
        exact Option.noConfusion h
      · unfold tc358746_calculate_csi_txtimings at h
        simp only [if_neg hle, if_neg h2, if_neg h3, if_neg h4] at h
        have hfst := congrArg (Option.map Prod.fst) h
        simp only [Option.map_some'] at hfst
        exact (Option.some.inj hfst).symm

/-- The synthesized timings depend only on `speed_per_lane` and
`is_continuous_clk`: for two link settings that agree on both, the results
differ only in the fields the function does not write. -/
theorem calculate_congr (s t : tc358746_csi_param)
    (hspl : t.speed_per_lane = s.speed_per_lane)
    (hcc : t.is_continuous_clk = s.is_continuous_clk) :
    tc358746_calculate_csi_txtimings t =
      (tc358746_calculate_csi_txtimings s).map
        (fun r => (r.1, if r.1 = 0 then with_timings_of t r.2 else t)) := by
  have hE : ¬ (-EINVAL : Int) = 0 := by decide
  obtain ⟨a1, a2, a3, spl, a5, cc, a7, a8, a9, a10, a11, a12, a13, a14, a15, a16, a17⟩ := s
  obtain ⟨b1, b2, b3, spl2, b5, cc2, b7, b8, b9, b10, b11, b12, b13, b14, b15, b16, b17⟩ := t
  simp only at hspl hcc
  subst hspl hcc
  unfold tc358746_calculate_csi_txtimings with_timings_of
  simp only
  split_ifs <;> simp only [Option.map_some', Option.map_none', if_neg hE, if_true]

theorem with_timings_of_self (r : tc358746_csi_param) : with_timings_of r r = r := by
  cases r; rfl

theorem with_timings_of_inputs (t r : tc358746_csi_param) :
    (with_timings_of t r).speed_per_lane = t.speed_per_lane ∧
    (with_timings_of t r).is_continuous_clk = t.is_continuous_clk ∧
    (with_timings_of t r).lane_num = t.lane_num ∧
    (with_timings_of t r).speed_range = t.speed_range ∧
    (with_timings_of t r).unit_clk_hz = t.unit_clk_hz ∧
    (with_timings_of t r).unit_clk_mul = t.unit_clk_mul :=
  ⟨rfl, rfl, rfl, rfl, rfl, rfl⟩

/-- A result of the timing synthesis is the input with new timing fields on
success and the unchanged input on error. -/
theorem calculate_result_eq (s : tc358746_csi_param) (e : Int) (s' : tc358746_csi_param)
    (h : tc358746_calculate_csi_txtimings s = some (e, s')) :
    s' = if e = 0 then with_timings_of s s' else s := by
  have hc := calculate_congr s s rfl rfl
  rw [h] at hc
  simp only [Option.map_some', Option.some.injEq, Prod.mk.injEq, true_and] at hc
  exact hc

/-! ## C13: the byte-clock limit -/

/-- C13: `tc358746_calculate_csi_txtimings` returns an error exactly when the HS
byte clock `speed_per_lane >> 3` exceeds 125,000,000 Hz; the error is `-EINVAL`
and the link setting is returned unchanged.  For a byte clock within the limit
(and a rate of at least 16 kbit/s, so that no period division divides by zero)
it returns 0. -/
theorem calculate_csi_txtimings_error_iff (s : tc358746_csi_param) :
    (125000000 < s.speed_per_lane >>> 3 →
      tc358746_calculate_csi_txtimings s = some (-EINVAL, s)) ∧
    (∀ (e : Int) (s' : tc358746_csi_param),
      tc358746_calculate_csi_txtimings s = some (e, s') →
        (e ≠ 0 ↔ 125000000 < s.speed_per_lane >>> 3) ∧ (e ≠ 0 → e = -EINVAL ∧ s' = s)) ∧
    (16000 ≤ s.speed_per_lane → s.speed_per_lane >>> 3 ≤ 125000000 →
      ∃ s', tc358746_calculate_csi_txtimings s = some (0, s')) := by
  have hE : (-EINVAL : Int) ≠ 0 := by decide
  refine ⟨calculate_error_of_gt s, ?_,
    fun h16 hle => (calculate_csi_txtimings_result s h16).2 hle⟩
  intro e s' h
  by_cases hgt : 125000000 < s.speed_per_lane >>> 3
  · have h2 := calculate_error_of_gt s hgt
    rw [h2] at h
    simp only [Option.some.injEq, Prod.mk.injEq] at h
    obtain ⟨he, hs⟩ := h
    subst he; subst hs
    exact ⟨⟨fun _ => hgt, fun _ => hE⟩, fun _ => ⟨rfl, rfl⟩⟩
  · have he := calculate_ok_of_le s hgt e s' h
    exact ⟨⟨fun hne => absurd he hne, fun h' => absurd h' hgt⟩, fun hne => absurd he hne⟩

/-- Witness for C13: a link setting with a byte clock of 125,000,001 Hz. -/
theorem calculate_csi_txtimings_error_iff_witness :
    tc358746_calculate_csi_txtimings sample_link_too_fast
      = some (-EINVAL, sample_link_too_fast) := by
  have h : (125000000 : Nat) < sample_link_too_fast.speed_per_lane >>> (3 : Nat) := by
    decide
  exact (calculate_csi_txtimings_error_iff sample_link_too_fast).1 h

/-! ## C14: idempotence of the timing synthesis -/

/-- C14: if `tc358746_calculate_csi_txtimings` maps `s` to `s'` (with return
value `e`), then it maps `s'` to `s'` again with the same return value; it leaves
`speed_per_lane`, `is_continuous_clk`, `lane_num`, `speed_range`, `unit_clk_hz`
and `unit_clk_mul` unchanged; and on success every link setting `t` with the
same `speed_per_lane` and `is_continuous_clk` receives exactly the timing fields
of `s'`. -/
theorem calculate_csi_txtimings_idempotent (s : tc358746_csi_param) (e : Int)
    (s' : tc358746_csi_param) (h : tc358746_calculate_csi_txtimings s = some (e, s')) :
    tc358746_calculate_csi_txtimings s' = some (e, s') ∧
    s'.speed_per_lane = s.speed_per_lane ∧ s'.is_continuous_clk = s.is_continuous_clk ∧
    s'.lane_num = s.lane_num ∧ s'.speed_range = s.speed_range ∧
    s'.unit_clk_hz = s.unit_clk_hz ∧ s'.unit_clk_mul = s.unit_clk_mul ∧
    (∀ t : tc358746_csi_param, t.speed_per_lane = s.speed_per_lane →
      t.is_continuous_clk = s.is_continuous_clk → e = 0 →
      tc358746_calculate_csi_txtimings t = some (0, with_timings_of t s')) := by
  have hres := calculate_result_eq s e s' h
  have hin : s'.speed_per_lane = s.speed_per_lane ∧
      s'.is_continuous_clk = s.is_continuous_clk ∧ s'.lane_num = s.lane_num ∧
      s'.speed_range = s.speed_range ∧ s'.unit_clk_hz = s.unit_clk_hz ∧
      s'.unit_clk_mul = s.unit_clk_mul := by
    by_cases he : e = 0
    · rw [if_pos he] at hres
      rw [hres]
      exact with_timings_of_inputs s s'
    · rw [if_neg he] at hres
      rw [hres]
      exact ⟨rfl, rfl, rfl, rfl, rfl, rfl⟩
  refine ⟨?_, hin.1, hin.2.1, hin.2.2.1, hin.2.2.2.1, hin.2.2.2.2.1, hin.2.2.2.2.2, ?_⟩
  · have hc := calculate_congr s s' hin.1 hin.2.1
    rw [h] at hc
    rw [hc]
    simp only [Option.map_some', with_timings_of_self, ite_self]
  · intro t ht1 ht2 he
    have hc := calculate_congr s t ht1 ht2
    rw [h] at hc
    rw [hc]
    subst he
    simp only [Option.map_some', if_true]

/-- Witness for C14: the sample link setting is a fixed point of the synthesis. -/
theorem calculate_csi_txtimings_idempotent_witness :
    tc358746_calculate_csi_txtimings sample_link_432 = some (0, sample_link_432) :=
  (calculate_csi_txtimings_idempotent sample_link_432 0 sample_link_432 (by decide)).1

/-! ## C17: no horizontal blanking -/

/-- With `p_htotal_ps = p_hactive_ps` the first two signed differences of the
loop condition are negatives of each other modulo `2^32`, so they are never
both positive. -/
theorem fifo_fits_no_blank (format : tc358746_mbus_fmt) (csi : tc358746_csi_param)
    (l : fifo_locals) (width : Int) (f : Nat)
    (ht : l.p_htotal_ps = u32 (0 + l.p_hactive_ps)) :
    fifo_fits format csi l width f = false := by
  unfold fifo_fits
  simp only [Bool.and_eq_false_imp, decide_eq_true_eq, decide_eq_false_iff_not, not_lt]
  generalize u32 (u32 (u32 (l.csi_bps_period_ps * format.bpp) * of_int width) +
    u32 (u32 (u32 (f * 32) * l.pclk_period_ps) / format.bus_width +
      u32 (4 * l.csi_hsclk_period_ps))) = c
  rw [ht]
  intro h1
  simp only [Bool.and_eq_true, decide_eq_true_eq] at h1
  obtain ⟨h1, h2⟩ := h1
  exfalso
  unfold to_int usub u32 at *
  norm_num only at *
  split_ifs at * <;> omega

theorem adjust_fifo_locals_no_blank (state : tc358746_state) (format : tc358746_mbus_fmt)
    (csi : tc358746_csi_param) (width : Int) (l : fifo_locals) (hb : state.hblank = 0)
    (hl : adjust_fifo_locals state format csi width = some l) :
    l.p_htotal_ps = u32 (0 + l.p_hactive_ps) := by
  unfold adjust_fifo_locals at hl
  simp only [hb, Nat.mul_zero] at hl
  split_ifs at hl
  simp only [Option.some.injEq] at hl
  subst hl
  rfl

theorem adjust_fifo_size_no_blank (state : tc358746_state) (format : tc358746_mbus_fmt)
    (csi : tc358746_csi_param) (width : Int) (hd : periods_defined state format csi)
    (hb : state.hblank = 0) :
    tc358746_adjust_fifo_size state format csi width = some (-EINVAL, 512) := by
  obtain ⟨l, hl⟩ := adjust_fifo_locals_defined state format csi width hd
  have ht := adjust_fifo_locals_no_blank state format csi width l hb hl
  have hno : ∀ g, fifo_fits format csi l width g = false :=
    fun g => fifo_fits_no_blank format csi l width g ht
  unfold tc358746_adjust_fifo_size
  rw [hl]
  simp only [hd.2.2.2, if_false]
  rw [fifo_loop_none _ hno]
  rfl

/-- C17: with `hblank = 0` the loop condition of `tc358746_adjust_fifo_size` holds
for no format, link setting, width and FIFO depth; hence, on a device whose
link settings can all be evaluated, `tc358746_adjust_timings` exhausts every
width `W, W-10, ...` for each requested width `W > 0` and ends with the output
width `W - 10 * ceil(W / 10) ≤ 0`, which is 0 for `W = 640`. -/
theorem adjust_timings_no_blank (state : tc358746_state) (format : tc358746_mbus_fmt)
    (W : Int) (fifo0 : Nat) (hW : 0 < W) (hd : search_defined state format)
    (hb : state.hblank = 0) :
    (∀ (fmt : tc358746_mbus_fmt) (csi : tc358746_csi_param) (w : Int) (F : Nat),
      ¬ fifo_feasible state fmt csi w F) ∧
    tc358746_adjust_timings state format W fifo0
      = some { freq := state.link_frequencies_num, width := W - 10 * ((W + 9) / 10),
               fifo_size := 512 } ∧
    W - 10 * ((W + 9) / 10) ≤ 0 ∧
    (W = 640 → W - 10 * ((W + 9) / 10) = 0) := by
  refine ⟨?_, ?_, by omega, by omega⟩
  · rintro fmt csi w F ⟨l, hl, hf⟩
    have ht := adjust_fifo_locals_no_blank state fmt csi w l hb hl
    rw [fifo_fits_no_blank fmt csi l w F ht] at hf
    exact Bool.noConfusion hf
  · have hall : ∀ i w, i < state.link_frequencies_num →
        adjust_fifo_at state format i w = some (-EINVAL, 512) := by
      intro i w hi
      obtain ⟨s, hsi, hp⟩ := hd.2 i hi
      simp only [adjust_fifo_at, hsi]
      exact adjust_fifo_size_no_blank state format s w hp hb
    exact width_loop_exhausted state format hd.1 hall W.toNat W _ fifo0 hW
      (Int.self_le_toNat W)

/-- Witness for C17: the sample device with hblank 0 at width 640. -/
theorem adjust_timings_no_blank_witness :
    tc358746_adjust_timings { sample_state with hblank := 0 } sample_uyvy8_2x8 640 0
      = some { freq := 1, width := 0, fifo_size := 512 } :=
  (adjust_timings_no_blank { sample_state with hblank := 0 } sample_uyvy8_2x8 640 0
    (by decide)
    ⟨by decide, fun i hi => by
      have h0 : i = 0 := Nat.lt_one_iff.mp hi
      subst h0
      exact ⟨sample_link_432, rfl, by decide⟩⟩
    rfl).2.1

/-! ## C19: format lookup -/

theorem get_format_loop_none_iff (code : Nat) (l : List tc358746_mbus_fmt) :
    get_format_loop code l = none ↔ ∀ f, f ∈ l → f.code ≠ code := by
  induction l with
  | nil => simp [get_format_loop]
  | cons g rest ih =>
    rw [get_format_loop]
    by_cases hg : g.code = code
    · rw [if_pos hg]
      constructor
      · intro h; exact Option.noConfusion h
      · intro h; exact absurd hg (h g (List.mem_cons_self g rest))
    · rw [if_neg hg, ih]
      constructor
      · intro h f hf
        rcases List.mem_cons.mp hf with rfl | hf
        · exact hg
        · exact h f hf
      · intro h f hf
        exact h f (List.mem_cons_of_mem g hf)

theorem get_format_loop_some_iff (code : Nat) (l : List tc358746_mbus_fmt)
    (hnd : (l.map (fun f => f.code)).Nodup) (f : tc358746_mbus_fmt) :
    get_format_loop code l = some f ↔ (f ∈ l ∧ f.code = code) := by
  induction l with
  | nil => simp [get_format_loop]
  | cons g rest ih =>
    rw [List.map_cons, List.nodup_cons] at hnd
    rw [get_format_loop]
    by_cases hg : g.code = code
    · rw [if_pos hg]
      constructor
      · intro h
        have hgf : g = f := Option.some.inj h
        subst hgf
        exact ⟨List.mem_cons_self g rest, hg⟩
      · rintro ⟨hf, hfc⟩
        rcases List.mem_cons.mp hf with rfl | hf
        · rfl
        · exfalso
          apply hnd.1
          rw [hg, ← hfc]
          exact List.mem_map_of_mem (fun f => f.code) hf
    · rw [if_neg hg, ih hnd.2]
      constructor
      · rintro ⟨hf, hfc⟩
        exact ⟨List.mem_cons_of_mem g hf, hfc⟩
      · rintro ⟨hf, hfc⟩
        rcases List.mem_cons.mp hf with rfl | hf
        · exact absurd hfc hg
        · exact ⟨hf, hfc⟩

theorem format_supported_loop_iff (code : Nat) (l : List tc358746_mbus_fmt) :
    (format_supported_loop code l = 0 ↔ ∃ f, get_format_loop code l = some f) ∧
    (format_supported_loop code l = 0 ∨ format_supported_loop code l = -EINVAL) := by
  have hE : (-EINVAL : Int) ≠ 0 := by decide
  induction l with
  | nil =>
    exact ⟨⟨fun h => absurd h hE, fun ⟨_, hf⟩ => Option.noConfusion hf⟩, Or.inr rfl⟩
  | cons g rest ih =>
    rw [format_supported_loop, get_format_loop]
    by_cases hg : g.code = code
    · rw [if_pos hg, if_pos hg]
      exact ⟨⟨fun _ => ⟨g, rfl⟩, fun _ => rfl⟩, Or.inl rfl⟩
    · rw [if_neg hg, if_neg hg]
      exact ih

/-- C19: the codes of `tc358746_formats` are 0x2006, 0x200f, 0x2011, 0x2018 and
0x1014, and no two entries share a format code; for every code
`tc358746_get_format` returns the table entry with that code when there is one
and `NULL` (`none`) otherwise; and `tc358746_format_supported` returns 0
exactly when `tc358746_get_format` finds an entry, and `-EINVAL` otherwise. -/
theorem format_lookup_total (h : tc358746_h) (code : Nat) :
    (tc358746_formats h).map (fun f => f.code)
      = [0x2006, 0x200f, 0x2011, 0x2018, 0x1014] ∧
    ((tc358746_formats h).map (fun f => f.code)).Nodup ∧
    (∀ f, tc358746_get_format h code = some f ↔ (f ∈ tc358746_formats h ∧ f.code = code)) ∧
    (tc358746_get_format h code = none ↔ ∀ f, f ∈ tc358746_formats h → f.code ≠ code) ∧
    (tc358746_format_supported h code = 0 ↔ ∃ f, tc358746_get_format h code = some f) ∧
    (tc358746_format_supported h code = 0 ∨ tc358746_format_supported h code = -EINVAL) := by
  have hcodes : (tc358746_formats h).map (fun f => f.code)
      = [0x2006, 0x200f, 0x2011, 0x2018, 0x1014] := rfl
  have hnd : ((tc358746_formats h).map (fun f => f.code)).Nodup := by
    rw [hcodes]; decide
  exact ⟨hcodes, hnd, fun f => get_format_loop_some_iff code _ hnd f,
    get_format_loop_none_iff code _,
    (format_supported_loop_iff code _).1, (format_supported_loop_iff code _).2⟩

/-! ## C15: speed range and feedback divider -/

/-- What a successful run of the lane-setting loop leaves behind: the entries
before `i` are untouched, and every entry from `i` on holds the truncated
per-lane rate of its link frequency, which lies in the accepted range, together
with its speed range. -/
theorem set_lane_loop_ok (fw : v4l2_fwnode_endpoint) (n : Nat) :
    ∀ (i : Nat) (state st : tc358746_state),
      set_lane_loop fw n i state = some (0, st) →
      st.pllinclk_hz = state.pllinclk_hz ∧
      (∀ j, j < i → st.link_freq_settings[j]? = state.link_freq_settings[j]?) ∧
      (∀ j, i ≤ j → j < i + n →
        ∃ f s, fw.link_frequencies[j]? = some f ∧ st.link_freq_settings[j]? = some s ∧
          s.speed_per_lane = u32 (2 * f) ∧ accepted_link s) := by
  induction n with
  | zero =>
    intro i state st h
    simp only [set_lane_loop, Option.some.injEq, Prod.mk.injEq, true_and] at h
    subst h
    exact ⟨rfl, fun _ _ => rfl, fun j h1 h2 => absurd h2 (by omega)⟩
  | succ n ih =>
    intro i state st h
    have hE : ¬ (-EINVAL : Int) = 0 := by decide
    rw [set_lane_loop] at h
    cases hf : fw.link_frequencies[i]? with
    | none => rw [hf] at h; exact Option.noConfusion h
    | some f =>
      cases hs : state.link_freq_settings[i]? with
      | none => rw [hf, hs] at h; exact Option.noConfusion h
      | some s =>
        rw [hf, hs] at h
        simp only at h
        by_cases hlen : state.link_frequencies.length ≤ i
        · rw [if_pos hlen] at h; exact Option.noConfusion h
        · rw [if_neg hlen] at h
          generalize hbps : u32 (2 * f) = bps at h
          by_cases hbad : bps < 62500000 ∨ 1000000000 < bps
          · rw [if_pos hbad] at h
            have hfst := congrArg (Option.map Prod.fst) h
            simp only [Option.map_some', Option.some.injEq] at hfst
            exact absurd hfst hE
          · rw [if_neg hbad] at h
            generalize hsr : (if 500000000 < bps then 0
              else if 250000000 < bps then 1
              else if 125000000 < bps then 2
              else 3) = sr at h
            by_cases hu : state.pllinclk_hz >>> sr = 0
            · rw [if_pos hu] at h; exact Option.noConfusion h
            · rw [if_neg hu] at h
              obtain ⟨h1, h2, h3⟩ := ih (i + 1) _ st h
              have hi : i < state.link_freq_settings.length := by
                rcases Nat.lt_or_ge i state.link_freq_settings.length with hlt | hge
                · exact hlt
                · rw [List.getElem?_eq_none hge] at hs; exact Option.noConfusion hs
              refine ⟨h1, ?_, ?_⟩
              · intro j hj
                rw [h2 j (by omega)]
                have hij : i ≠ j := by omega
                simp only [List.getElem?_set_ne hij]
              · intro j hj1 hj2
                by_cases hji : j = i
                · subst hji
                  have hst := h2 j (Nat.lt_succ_self j)
                  simp only [List.getElem?_set_self hi] at hst
                  refine ⟨f, _, hf, hst, ?_, ?_⟩
                  · exact hbps.symm
                  · unfold accepted_link
                    simp only
                    subst hsr
                    refine ⟨by omega, by omega, ?_, ?_, ?_, ?_⟩
                    · intro hc; rw [if_pos hc]
                    · intro hc1 hc2
                      rw [if_neg (by omega), if_pos hc1]
                    · intro hc1 hc2
                      rw [if_neg (by omega), if_neg (by omega), if_pos hc1]
                    · intro hc
                      rw [if_neg (by omega), if_neg (by omega), if_neg (by omega)]
                · exact h3 j (by omega) (by omega)

/-- The feedback divider computed by `tc358746_set_pll` for an accepted current
link setting and a PLL input clock in `[4 MHz, 40 MHz]`: no 16-bit truncation
takes place. -/
theorem set_pll_fbd (state : tc358746_state) (s : tc358746_csi_param)
    (hs : state.link_freq_settings[state.link_freq]? = some s) (ha : accepted_link s)
    (hp1 : 4000000 ≤ state.pllinclk_hz) (hp2 : state.pllinclk_hz ≤ 40000000) :
    tc358746_set_pll state
      = some { state with pll_fbd := (s.speed_per_lane / state.pllinclk_hz) <<< s.speed_range } := by
  obtain ⟨h1, h2, c0, c1, c2, c3⟩ := ha
  have hq : s.speed_per_lane / state.pllinclk_hz ≤ s.speed_per_lane / 4000000 :=
    Nat.div_le_div_left hp1 (by decide)
  have hsr : s.speed_range ≤ 3 ∧
      (s.speed_per_lane / state.pllinclk_hz) <<< s.speed_range < 2 ^ 16 := by
    rcases Nat.lt_or_ge 500000000 s.speed_per_lane with g0 | g0
    · rw [c0 g0, Nat.shiftLeft_eq]; omega
    · rcases Nat.lt_or_ge 250000000 s.speed_per_lane with g1 | g1
      · rw [c1 g1 g0, Nat.shiftLeft_eq]; omega
      · rcases Nat.lt_or_ge 125000000 s.speed_per_lane with g2 | g2
        · rw [c2 g2 g1, Nat.shiftLeft_eq]; omega
        · rw [c3 g2, Nat.shiftLeft_eq]; omega
  have hfrs : u16 s.speed_range = s.speed_range := by
    unfold u16; exact Nat.mod_eq_of_lt (by omega)
  have hfbd : u16 (s.speed_per_lane / state.pllinclk_hz)
      = s.speed_per_lane / state.pllinclk_hz := by
    unfold u16; exact Nat.mod_eq_of_lt (by omega)
  have hsh : u16 ((s.speed_per_lane / state.pllinclk_hz) <<< s.speed_range)
      = (s.speed_per_lane / state.pllinclk_hz) <<< s.speed_range := by
    unfold u16; exact Nat.mod_eq_of_lt hsr.2
  have hc : ¬ (state.pllinclk_hz = 0 ∨ 32 ≤ s.speed_range) := by omega
  unfold tc358746_set_pll
  rw [hs]
  simp only [hfrs, hfbd, hsh, if_neg hc]

/-- Helper for the second part of C15. -/
theorem pll_fbd_update (state : tc358746_state) (x : Nat) :
    ({ state with pll_fbd := x } : tc358746_state).pll_fbd = x := rfl

/-- C15: every link setting that `tc358746_set_lane_settings` accepts holds the
(truncated) per-lane rate `2 * f` of its link frequency, which lies in
`[62.5 Mbit/s, 1 Gbit/s]`, and its `speed_range` is 0 above 500 Mbit/s, 1 above
250 Mbit/s, 2 above 125 Mbit/s and 3 otherwise; and for such a current link
setting and a PLL input clock in `[4 MHz, 40 MHz]` `tc358746_set_pll` computes
`pll_fbd = (speed_per_lane / pllinclk_hz) << speed_range`. -/
theorem speed_range_and_pll_fbd :
    (∀ (state : tc358746_state) (fw : v4l2_fwnode_endpoint) (st : tc358746_state) (j : Nat),
      tc358746_set_lane_settings state fw = some (0, st) → j < fw.nr_of_link_frequencies →
      ∃ f s, fw.link_frequencies[j]? = some f ∧ st.link_freq_settings[j]? = some s ∧
        s.speed_per_lane = u32 (2 * f) ∧ accepted_link s) ∧
    (∀ (state : tc358746_state) (s : tc358746_csi_param),
      state.link_freq_settings[state.link_freq]? = some s → accepted_link s →
      4000000 ≤ state.pllinclk_hz → state.pllinclk_hz ≤ 40000000 →
      ∃ st, tc358746_set_pll state = some st ∧
        st.pll_fbd = (s.speed_per_lane / state.pllinclk_hz) <<< s.speed_range) := by
  constructor
  · intro state fw st j h hj
    exact (set_lane_loop_ok fw _ 0 state st h).2.2 j (Nat.zero_le j) (by omega)
  · intro state s hs ha hp1 hp2
    exact ⟨_, set_pll_fbd state s hs ha hp1 hp2, pll_fbd_update state _⟩

/-- Witness for C15: the sample device, whose link setting of 432 Mbit/s has
speed range 1, gets the feedback divider `(432000000 / 4000000) << 1`. -/
theorem speed_range_and_pll_fbd_witness :
    ∃ st, tc358746_set_pll sample_state = some st ∧
      st.pll_fbd = (sample_link_432.speed_per_lane / sample_state.pllinclk_hz)
        <<< sample_link_432.speed_range :=
  speed_range_and_pll_fbd.2 sample_state sample_link_432 rfl (by decide) (by decide)
    (by decide)

/-! ## C16: the 640 pixel scenario -/

theorem adjust_fifo_size_format_congr (state : tc358746_state) (f1 f2 : tc358746_mbus_fmt)
    (h1 : f1.bus_width = f2.bus_width) (h2 : f1.bpp = f2.bpp) (h3 : f1.ppp = f2.ppp)
    (csi : tc358746_csi_param) (w : Int) :
    tc358746_adjust_fifo_size state f1 csi w = tc358746_adjust_fifo_size state f2 csi w := by
  obtain ⟨c1, bw1, bpp1, pd1, pa1, ppp1, cs1⟩ := f1
  obtain ⟨c2, bw2, bpp2, pd2, pa2, ppp2, cs2⟩ := f2
  simp only at h1 h2 h3
  subst h1 h2 h3
  have hf : ∀ l : fifo_locals,
      fifo_fits ⟨c1, bw1, bpp1, pd1, pa1, ppp1, cs1⟩ csi l w
        = fifo_fits ⟨c2, bw1, bpp1, pd2, pa2, ppp1, cs2⟩ csi l w := by
    intro l
    funext g
    simp only [fifo_fits]
  simp only [tc358746_adjust_fifo_size, adjust_fifo_locals, hf]

theorem freq_sweep_format_congr (state : tc358746_state) (f1 f2 : tc358746_mbus_fmt)
    (h : ∀ i w, adjust_fifo_at state f1 i w = adjust_fifo_at state f2 i w)
    (cur : Nat) (w : Int) (n : Nat) :
    ∀ i f0, freq_sweep state f1 cur w n i f0 = freq_sweep state f2 cur w n i f0 := by
  induction n with
  | zero => intro i f0; rfl
  | succ n ih =>
    intro i f0
    rw [freq_sweep, freq_sweep, h i w]
    by_cases hic : i = cur
    · rw [if_pos hic, if_pos hic]; exact ih (i + 1) f0
    · rw [if_neg hic, if_neg hic]
      cases adjust_fifo_at state f2 i w with
      | none => rfl
      | some p =>
        simp only
        by_cases he : p.1 = 0
        · rw [if_pos he, if_pos he]
        · rw [if_neg he, if_neg he]; exact ih (i + 1) p.2

theorem width_loop_format_congr (state : tc358746_state) (f1 f2 : tc358746_mbus_fmt)
    (h : ∀ i w, adjust_fifo_at state f1 i w = adjust_fifo_at state f2 i w)
    (cur : Nat) (n : Nat) :
    ∀ w fr f0, width_loop state f1 cur n w fr f0 = width_loop state f2 cur n w fr f0 := by
  induction n with
  | zero => intro w fr f0; rfl
  | succ n ih =>
    intro w fr f0
    rw [width_loop, width_loop, h cur w]
    by_cases hw : 0 < w
    · rw [if_pos hw, if_pos hw]
      cases adjust_fifo_at state f2 cur w with
      | none => rfl
      | some p =>
        simp only
        by_cases he : p.1 = 0
        · rw [if_pos he, if_pos he]
        · rw [if_neg he, if_neg he, freq_sweep_format_congr state f1 f2 h cur w]
          cases freq_sweep state f2 cur w state.link_frequencies_num 0 p.2 with
          | none => rfl
          | some q =>
            obtain ⟨b, j, f⟩ := q
            cases b with
            | true => rfl
            | false => exact ih (w - 10) j f
    · rw [if_neg hw, if_neg hw]

/-- The search depends on the format only through `bus_width`, `bpp` and `ppp`. -/
theorem adjust_timings_format_congr (state : tc358746_state) (f1 f2 : tc358746_mbus_fmt)
    (h1 : f1.bus_width = f2.bus_width) (h2 : f1.bpp = f2.bpp) (h3 : f1.ppp = f2.ppp)
    (W : Int) (fifo0 : Nat) :
    tc358746_adjust_timings state f1 W fifo0 = tc358746_adjust_timings state f2 W fifo0 := by
  have h : ∀ i w, adjust_fifo_at state f1 i w = adjust_fifo_at state f2 i w := by
    intro i w
    unfold adjust_fifo_at
    cases state.link_freq_settings[i]? with
    | none => rfl
    | some c => exact adjust_fifo_size_format_congr state f1 f2 h1 h2 h3 c w
  exact width_loop_format_congr state f1 f2 h _ _ W _ fifo0

/-- The search returns at once when the current link setting is feasible at the
requested width. -/
theorem adjust_timings_of_current (state : tc358746_state) (format : tc358746_mbus_fmt)
    (W : Int) (fifo0 F : Nat) (hW : 0 < W)
    (hat : adjust_fifo_at state format state.link_freq W = some (0, F)) :
    tc358746_adjust_timings state format W fifo0
      = some { freq := state.link_freq, width := W, fifo_size := F } := by
  simp only [tc358746_adjust_timings]
  rw [width_loop, if_pos hW, hat]
  simp only [if_true]

set_option maxRecDepth 100000 in
/-- The timings of the scenario link setting for both clock modes, and the FIFO
depths found for it at width 640 with the two UYVY formats. -/
theorem scenario_evaluated :
    tc358746_calculate_csi_txtimings (scenario_link true) = some (0, sample_link_432) ∧
    tc358746_calculate_csi_txtimings (scenario_link false) = some (0, sample_link_432_gated) ∧
    adjust_fifo_at (scenario_state sample_link_432) sample_uyvy8_2x8 0 640 = some (0, 209) ∧
    adjust_fifo_at (scenario_state sample_link_432) sample_uyvy8_1x16 0 640 = some (0, 98) ∧
    adjust_fifo_at (scenario_state sample_link_432_gated) sample_uyvy8_2x8 0 640
      = some (0, 209) ∧
    adjust_fifo_at (scenario_state sample_link_432_gated) sample_uyvy8_1x16 0 640
      = some (0, 98) := by
  decide

/-- C16: for width 640, a UYVY format of the table (`UYVY8_2X8` or `UYVY8_1X16`,
whatever the header constants), pixel clock 74.25 MHz, hblank 280 and the single
link setting of 432 Mbit/s per lane on 4 lanes (either clock mode) with the
timings that `tc358746_calculate_csi_txtimings` produces, the search returns
link index 0, the width 640 and a FIFO depth in `[1, 511]` (209 or 98). -/
theorem scenario_640_uyvy (h : tc358746_h) (is_continuous_clk : Bool)
    (format : tc358746_mbus_fmt) (fifo0 : Nat) (hmem : format ∈ tc358746_formats h)
    (hcode : format.code = MEDIA_BUS_FMT_UYVY8_2X8 ∨ format.code = MEDIA_BUS_FMT_UYVY8_1X16) :
    ∃ s F, tc358746_calculate_csi_txtimings (scenario_link is_continuous_clk) = some (0, s) ∧
      tc358746_adjust_timings (scenario_state s) format 640 fifo0
        = some { freq := 0, width := 640, fifo_size := F } ∧
      1 ≤ F ∧ F ≤ 511 := by
  obtain ⟨e1, e2, a1, a2, a3, a4⟩ := scenario_evaluated
  simp only [tc358746_formats, List.mem_cons, List.mem_singleton, List.not_mem_nil,
    or_false] at hmem
  rcases hmem with rfl | rfl | rfl | rfl | rfl
  · cases is_continuous_clk with
    | true =>
      refine ⟨sample_link_432, 209, e1, ?_, by decide, by decide⟩
      refine Eq.trans (adjust_timings_format_congr _ _ sample_uyvy8_2x8 ?_ ?_ ?_ _ _) ?_
      · rfl
      · rfl
      · rfl
      · exact adjust_timings_of_current _ _ 640 fifo0 209 (by decide) a1
    | false =>
      refine ⟨sample_link_432_gated, 209, e2, ?_, by decide, by decide⟩
      refine Eq.trans (adjust_timings_format_congr _ _ sample_uyvy8_2x8 ?_ ?_ ?_ _ _) ?_
      · rfl
      · rfl
      · rfl
      · exact adjust_timings_of_current _ _ 640 fifo0 209 (by decide) a3
  · cases is_continuous_clk with
    | true =>
      refine ⟨sample_link_432, 98, e1, ?_, by decide, by decide⟩
      refine Eq.trans (adjust_timings_format_congr _ _ sample_uyvy8_1x16 ?_ ?_ ?_ _ _) ?_
      · rfl
      · rfl
      · rfl
      · exact adjust_timings_of_current _ _ 640 fifo0 98 (by decide) a2
    | false =>
      refine ⟨sample_link_432_gated, 98, e2, ?_, by decide, by decide⟩
      refine Eq.trans (adjust_timings_format_congr _ _ sample_uyvy8_1x16 ?_ ?_ ?_ _ _) ?_
      · rfl
      · rfl
      · rfl
      · exact adjust_timings_of_current _ _ 640 fifo0 98 (by decide) a4
  · simp only at hcode
    exact absurd hcode (by decide)
  · simp only at hcode
    exact absurd hcode (by decide)
  · simp only at hcode
    exact absurd hcode (by decide)

/-- Witness for C16: the format `UYVY8_2X8` of the table with continuous clock. -/
theorem scenario_640_uyvy_witness :
    ∃ s F, tc358746_calculate_csi_txtimings (scenario_link true) = some (0, s) ∧
      tc358746_adjust_timings (scenario_state s) sample_uyvy8_2x8 640 0
        = some { freq := 0, width := 640, fifo_size := F } ∧
      1 ≤ F ∧ F ≤ 511 :=
  scenario_640_uyvy sample_header true sample_uyvy8_2x8 0 (by decide) (by decide)

/-! ## Lemmas on the stored counts -/

/-- The counts `lptxtimecnt`, `ths_zerocnt` and `twakeupcnt` that
`tc358746_calculate_csi_txtimings` stores on success. -/
theorem calculate_counts (s : tc358746_csi_param) (h : 16000 ≤ s.speed_per_lane)
    (hle : s.speed_per_lane >>> 3 ≤ 125000000) :
    ∃ s', tc358746_calculate_csi_txtimings s = some (0, s') ∧
      s'.lptxtimecnt =
        usub (DIV_ROUND_UP (TC358746_LPTXTIME_MIN_NS * 1000)
          (1000000000 / (s.speed_per_lane >>> 3 / 1000))) 1 ∧
      s'.ths_zerocnt =
        (if DIV_ROUND_UP (usub (TC358746_THSZERO_MIN_NS * 1000)
              (1000000000 / (s.speed_per_lane / 1000)))
            (1000000000 / (s.speed_per_lane >>> 3 / 1000)) < 11 then 0
          else DIV_ROUND_UP (usub (TC358746_THSZERO_MIN_NS * 1000)
              (1000000000 / (s.speed_per_lane / 1000)))
            (1000000000 / (s.speed_per_lane >>> 3 / 1000)) - 11) ∧
      s'.twakeupcnt =
        usub (DIV_ROUND_UP (TC358746_TWAKEUP_MIN_US * 1000)
          (u32 (1000000000 / (s.speed_per_lane >>> 3 / 1000) / 1000 *
            u32 (usub (DIV_ROUND_UP (TC358746_LPTXTIME_MIN_NS * 1000)
              (1000000000 / (s.speed_per_lane >>> 3 / 1000))) 1 + 1)))) 1 := by
  have h1 : ¬ 125000000 < s.speed_per_lane >>> 3 := by omega
  have h8 := shiftRight_three s.speed_per_lane
  have h2 : ¬ (s.speed_per_lane >>> 3 >>> 1 = 0 ∨ s.speed_per_lane >>> 3 / 1000 = 0 ∨
      s.speed_per_lane / 1000 = 0) := by
    rw [shiftRight_one, h8]; omega
  obtain ⟨hp1, hp2⟩ :=
    hsclk_period_bounds (s.speed_per_lane >>> 3) (by rw [h8]; omega) hle
  have h3 : ¬ (DIV_ROUND_CLOSEST 1000000000 (s.speed_per_lane >>> 3 >>> 1) = 0 ∨
      1000000000 / (s.speed_per_lane >>> 3 / 1000) = 0) := by
    have hf1 : 1000 ≤ s.speed_per_lane >>> 3 >>> 1 := by rw [shiftRight_one, h8]; omega
    have hf2 : s.speed_per_lane >>> 3 >>> 1 ≤ 62500000 := by rw [shiftRight_one]; omega
    generalize s.speed_per_lane >>> 3 >>> 1 = hf at hf1 hf2
    have : 0 < DIV_ROUND_CLOSEST 1000000000 hf := by
      unfold DIV_ROUND_CLOSEST u32
      rw [Nat.mod_eq_of_lt (by omega)]
      exact Nat.div_pos (by omega) (by omega)
    omega
  have h4 := wakeup_div_ne_zero _ hp1 hp2
  unfold tc358746_calculate_csi_txtimings
  simp only [if_neg h1, if_neg h2, if_neg h3, if_neg h4]
  exact ⟨_, rfl, rfl, rfl, rfl⟩

/-- The macro `DIV_ROUND_UP` without 32-bit wrap. -/
theorem div_round_up_eq (n d : Nat) (h : n + d < 2 ^ 32) (hd : 0 < d) :
    DIV_ROUND_UP n d = (n + d - 1) / d := by
  have hn : usub (u32 (n + d)) 1 = n + d - 1 := by
    unfold usub u32; omega
  unfold DIV_ROUND_UP
  rw [hn]

/-- A rounded-up quotient times the divisor reaches the dividend. -/
theorem le_ceil_mul (n d : Nat) (hd : 0 < d) : n ≤ (n + d - 1) / d * d := by
  have h1 : (n + d - 1) / d * d + (n + d - 1) % d = n + d - 1 := Nat.div_add_mod' _ _
  have h2 := Nat.mod_lt (n + d - 1) hd
  omega

/-- The periods of the byte clock and of the bit clock, in picoseconds, for a
per-lane rate in `[62.5 Mbit/s, 1 Gbit/s]`. -/
theorem supported_periods (spl : Nat) (h1 : 62500000 ≤ spl) (h2 : spl ≤ 1000000000) :
    (8000 ≤ 1000000000 / (spl >>> 3 / 1000) ∧ 1000000000 / (spl >>> 3 / 1000) ≤ 128008) ∧
    (1000 ≤ 1000000000 / (spl / 1000) ∧ 1000000000 / (spl / 1000) ≤ 16000) := by
  have h8 := shiftRight_three spl
  have hx1 : 7812 ≤ spl >>> 3 / 1000 := by rw [h8]; omega
  have hx2 : spl >>> 3 / 1000 ≤ 125000 := by rw [h8]; omega
  have hy1 : 62500 ≤ spl / 1000 := by omega
  have hy2 : spl / 1000 ≤ 1000000 := by omega
  generalize spl >>> 3 / 1000 = x at hx1 hx2
  generalize spl / 1000 = y at hy1 hy2
  refine ⟨⟨?_, ?_⟩, ?_, ?_⟩
  · rw [Nat.le_div_iff_mul_le (by omega)]; omega
  · calc 1000000000 / x ≤ 1000000000 / 7812 := Nat.div_le_div_left hx1 (by decide)
      _ ≤ 128008 := by norm_num
  · rw [Nat.le_div_iff_mul_le (by omega)]; omega
  · calc 1000000000 / y ≤ 1000000000 / 62500 := Nat.div_le_div_left hy1 (by decide)
      _ ≤ 16000 := by norm_num

/-- The HS-zero time for a byte clock period `P` and a bit period `Q`. -/
theorem ths_zero_arith (P Q : Nat) (hP1 : 8000 ≤ P) (hP2 : P ≤ 128008) (hQ1 : 1000 ≤ Q)
    (hQ2 : Q ≤ 16000) :
    145000 + 10 * Q <
      (7 + (if DIV_ROUND_UP (usub (TC358746_THSZERO_MIN_NS * 1000) Q) P < 11 then 0
        else DIV_ROUND_UP (usub (TC358746_THSZERO_MIN_NS * 1000) Q) P - 11)) * P
        + 4 * P + 11 * Q ∧
    (7 + (if DIV_ROUND_UP (usub (TC358746_THSZERO_MIN_NS * 1000) Q) P < 11 then 0
        else DIV_ROUND_UP (usub (TC358746_THSZERO_MIN_NS * 1000) Q) P - 11)) * P
        + 4 * P + 11 * Q < 2 ^ 32 := by
  have hn : usub (TC358746_THSZERO_MIN_NS * 1000) Q = 150000 - Q := by
    unfold usub u32 TC358746_THSZERO_MIN_NS; omega
  rw [hn, div_round_up_eq _ _ (by omega) (by omega)]
  have hge := le_ceil_mul (150000 - Q) P (by omega)
  have hle : (150000 - Q + P - 1) / P * P ≤ 150000 - Q + P - 1 := Nat.div_mul_le_self _ _
  generalize (150000 - Q + P - 1) / P = t at hge hle
  by_cases hc : t < 11
  · rw [if_pos hc]
    have : t * P ≤ 10 * P := Nat.mul_le_mul_right P (by omega)
    omega
  · rw [if_neg hc]
    have he : (7 + (t - 11)) * P + 4 * P = t * P := by
      rw [← Nat.add_mul]
      congr 1
      omega
    omega

/-- The wake-up time for a byte clock period `P`. -/
theorem twakeup_arith (P : Nat) (hP1 : 8000 ≤ P) (hP2 : P ≤ 128008) :
    1200000000 ≤
      P * (usub (DIV_ROUND_UP (TC358746_LPTXTIME_MIN_NS * 1000) P) 1 + 1) *
        (usub (DIV_ROUND_UP (TC358746_TWAKEUP_MIN_US * 1000)
          (u32 (P / 1000 *
            u32 (usub (DIV_ROUND_UP (TC358746_LPTXTIME_MIN_NS * 1000) P) 1 + 1)))) 1 + 1) := by
  obtain ⟨hq1, hq2⟩ := lptxtime_bounds P hP1 (by omega)
  generalize DIV_ROUND_UP (TC358746_LPTXTIME_MIN_NS * 1000) P = q at hq1 hq2
  have hq : usub q 1 + 1 = q := by unfold usub u32; omega
  have hqu : u32 q = q := by unfold u32; omega
  rw [hq, hqu]
  have ht1 : 8 ≤ P / 1000 := by omega
  have ht2 : P / 1000 ≤ 128 := by omega
  have htP : 1000 * (P / 1000) ≤ P := Nat.mul_div_le P 1000
  generalize P / 1000 = t at ht1 ht2 htP
  have hlo : 1 ≤ t * q := Nat.mul_pos (by omega) (by omega)
  have hhi : t * q ≤ 128 * 7 := Nat.mul_le_mul ht2 hq2
  have hd : u32 (t * q) = t * q := by
    unfold u32; exact Nat.mod_eq_of_lt (by omega)
  rw [hd]
  have hmin : TC358746_TWAKEUP_MIN_US * 1000 = 1200000 := rfl
  rw [hmin, div_round_up_eq _ _ (by omega) (by omega)]
  have hge := le_ceil_mul 1200000 (t * q) (by omega)
  have hW1 : 1 ≤ (1200000 + t * q - 1) / (t * q) := Nat.div_pos (by omega) (by omega)
  have hW2 : (1200000 + t * q - 1) / (t * q) ≤ 1200000 + t * q - 1 := Nat.div_le_self _ _
  generalize (1200000 + t * q - 1) / (t * q) = W at hge hW1 hW2
  have hw : usub W 1 + 1 = W := by unfold usub u32; omega
  rw [hw]
  calc 1200000000 = 1000 * 1200000 := by norm_num
    _ ≤ 1000 * (W * (t * q)) := Nat.mul_le_mul_left 1000 hge
    _ = (1000 * t) * q * W := by ring
    _ ≤ P * q * W := Nat.mul_le_mul_right W (Nat.mul_le_mul_right q htP)

/-! ## C21: the HS-zero time -/

/-- C21: for every per-lane rate in `[62.5 Mbit/s, 1 Gbit/s]`
`tc358746_calculate_csi_txtimings` succeeds, and the HS-zero time
`(7 + ths_zerocnt) * hsclk_p_ps + 4 * hsclk_p_ps + 11 * spl_p_ps` of the count
it stores exceeds `145000 + 10 * spl_p_ps` picoseconds, whether or not
`ths_zerocnt` was clamped to 0; the time stays below `2^32`, so the 32-bit
evaluation of the code does not wrap. -/
theorem ths_zero_exceeds_minimum (s : tc358746_csi_param)
    (h1 : 62500000 ≤ s.speed_per_lane) (h2 : s.speed_per_lane ≤ 1000000000) :
    ∃ s', tc358746_calculate_csi_txtimings s = some (0, s') ∧
      145000 + 10 * (1000000000 / (s.speed_per_lane / 1000)) <
        (7 + s'.ths_zerocnt) * (1000000000 / (s.speed_per_lane >>> 3 / 1000))
          + 4 * (1000000000 / (s.speed_per_lane >>> 3 / 1000))
          + 11 * (1000000000 / (s.speed_per_lane / 1000)) ∧
      (7 + s'.ths_zerocnt) * (1000000000 / (s.speed_per_lane >>> 3 / 1000))
          + 4 * (1000000000 / (s.speed_per_lane >>> 3 / 1000))
          + 11 * (1000000000 / (s.speed_per_lane / 1000)) < 2 ^ 32 := by
  obtain ⟨⟨hP1, hP2⟩, hQ1, hQ2⟩ := supported_periods s.speed_per_lane h1 h2
  obtain ⟨s', hs', _, hz, _⟩ :=
    calculate_counts s (by omega) (by rw [shiftRight_three]; omega)
  refine ⟨s', hs', ?_⟩
  rw [hz]
  exact ths_zero_arith _ _ hP1 hP2 hQ1 hQ2

/-- Witness for C21: the statement at 62.5 Mbit/s per lane, where the byte
clock period is 128,008 ps, the bit period 16,000 ps and `ths_zerocnt` is
clamped to 0. -/
theorem ths_zero_exceeds_minimum_witness :
    ∃ s', tc358746_calculate_csi_txtimings sample_link_62m5 = some (0, s') ∧
      145000 + 10 * (1000000000 / (sample_link_62m5.speed_per_lane / 1000)) <
        (7 + s'.ths_zerocnt) * (1000000000 / (sample_link_62m5.speed_per_lane >>> 3 / 1000))
          + 4 * (1000000000 / (sample_link_62m5.speed_per_lane >>> 3 / 1000))
          + 11 * (1000000000 / (sample_link_62m5.speed_per_lane / 1000)) ∧
      (7 + s'.ths_zerocnt) * (1000000000 / (sample_link_62m5.speed_per_lane >>> 3 / 1000))
          + 4 * (1000000000 / (sample_link_62m5.speed_per_lane >>> 3 / 1000))
          + 11 * (1000000000 / (sample_link_62m5.speed_per_lane / 1000)) < 2 ^ 32 :=
  ths_zero_exceeds_minimum sample_link_62m5 (by decide) (by decide)

/-! ## C22: the wake-up time -/

/-- C22: for every per-lane rate in `[62.5 Mbit/s, 1 Gbit/s]`
`tc358746_calculate_csi_txtimings` succeeds, and the wake-up time
`hsclk_p_ps * (lptxtimecnt + 1) * (twakeupcnt + 1)` of the counts it stores is
at least 1,200,000,000 ps (1.2 ms), hence above the protocol minimum of
1,000,000,000 ps (1 ms). -/
theorem twakeup_at_least_1200_us (s : tc358746_csi_param)
    (h1 : 62500000 ≤ s.speed_per_lane) (h2 : s.speed_per_lane ≤ 1000000000) :
    ∃ s', tc358746_calculate_csi_txtimings s = some (0, s') ∧
      1200000000 ≤ 1000000000 / (s.speed_per_lane >>> 3 / 1000) *
        (s'.lptxtimecnt + 1) * (s'.twakeupcnt + 1) ∧
      1000000000 < 1000000000 / (s.speed_per_lane >>> 3 / 1000) *
        (s'.lptxtimecnt + 1) * (s'.twakeupcnt + 1) := by
  obtain ⟨⟨hP1, hP2⟩, _⟩ := supported_periods s.speed_per_lane h1 h2
  obtain ⟨s', hs', hl, _, hw⟩ :=
    calculate_counts s (by omega) (by rw [shiftRight_three]; omega)
  have hge := twakeup_arith _ hP1 hP2
  rw [← hw, ← hl] at hge
  exact ⟨s', hs', hge, by omega⟩

/-- Witness for C22: the statement at 432 Mbit/s per lane, where the byte clock
period is 18,518 ps, `lptxtimecnt` is 2 and `twakeupcnt` is 22,222. -/
theorem twakeup_at_least_1200_us_witness :
    ∃ s', tc358746_calculate_csi_txtimings (scenario_link true) = some (0, s') ∧
      1200000000 ≤ 1000000000 / ((scenario_link true).speed_per_lane >>> 3 / 1000) *
        (s'.lptxtimecnt + 1) * (s'.twakeupcnt + 1) ∧
      1000000000 < 1000000000 / ((scenario_link true).speed_per_lane >>> 3 / 1000) *
        (s'.lptxtimecnt + 1) * (s'.twakeupcnt + 1) :=
  twakeup_at_least_1200_us (scenario_link true) (by decide) (by decide)

/-! ## C23: the rate reproduced by the programmed PLL -/

/-- Storing the feedback divider leaves the PLL input clock unchanged. -/
theorem pll_fbd_keeps_pllinclk (state : tc358746_state) (x : Nat) :
    ({ state with pll_fbd := x } : tc358746_state).pllinclk_hz = state.pllinclk_hz := rfl

/-- C23 (counterexample): a 13 MHz reference clock is accepted by the PLL
derivation and gives the input clock 4,333,333 Hz; for the accepted link
setting of 432 Mbit/s per lane `tc358746_set_pll` then computes
`pll_fbd = (432000000 / 4333333) << 1 = 198`, for which
`(pllinclk_hz * pll_fbd) / 2^speed_range` is 428,999,967 and not 432,000,000,
and no feedback divider at all reproduces 432,000,000 from that input clock.
With the 24 MHz reference clock (input clock 4 MHz) the accepted rate of
62.5 Mbit/s per lane gives `pll_fbd = 120` and the rate 60,000,000. -/
theorem set_pll_misses_rate :
    (accepted_link sample_link_432 ∧
      probe_fw_pll sample_state 13000000
        = (0, { sample_state with pll_prd := 3, pllinclk_hz := 4333333 }) ∧
      tc358746_set_pll (probe_fw_pll sample_state 13000000).2
        = some { sample_state with pll_prd := 3, pllinclk_hz := 4333333, pll_fbd := 198 } ∧
      (4333333 * 198) / 2 ^ sample_link_432.speed_range = 428999967 ∧
      sample_link_432.speed_per_lane ≠ (4333333 * 198) / 2 ^ sample_link_432.speed_range ∧
      ∀ fbd : Nat, (4333333 * fbd) / 2 ^ 1 ≠ 432000000) ∧
    (accepted_link sample_link_62m5 ∧
      (probe_fw_pll (scenario_state sample_link_62m5) 24000000).1 = 0 ∧
      (probe_fw_pll (scenario_state sample_link_62m5) 24000000).2.pllinclk_hz = 4000000 ∧
      (tc358746_set_pll (probe_fw_pll (scenario_state sample_link_62m5) 24000000).2).map
        (fun st => st.pll_fbd) = some 120 ∧
      sample_link_62m5.speed_per_lane ≠ (4000000 * 120) / 2 ^ sample_link_62m5.speed_range) := by
  refine ⟨⟨by decide, by decide, by decide, by decide, by decide, ?_⟩, by decide⟩
  intro fbd
  omega

/-- C23 (amended): for an accepted current link setting and a PLL input clock
in `[4 MHz, 40 MHz]`, the rate `(pllinclk_hz * pll_fbd) / 2^speed_range` of the
PLL programmed by `tc358746_set_pll` never exceeds `speed_per_lane`, falls
short of it by less than `pllinclk_hz`, and equals it whenever `pllinclk_hz`
divides `speed_per_lane`. -/
theorem set_pll_rate (state : tc358746_state) (s : tc358746_csi_param)
    (hs : state.link_freq_settings[state.link_freq]? = some s) (ha : accepted_link s)
    (hp1 : 4000000 ≤ state.pllinclk_hz) (hp2 : state.pllinclk_hz ≤ 40000000) :
    ∃ st, tc358746_set_pll state = some st ∧
      st.pllinclk_hz * st.pll_fbd / 2 ^ s.speed_range ≤ s.speed_per_lane ∧
      s.speed_per_lane < st.pllinclk_hz * st.pll_fbd / 2 ^ s.speed_range + state.pllinclk_hz ∧
      (state.pllinclk_hz ∣ s.speed_per_lane →
        st.pllinclk_hz * st.pll_fbd / 2 ^ s.speed_range = s.speed_per_lane) := by
  refine ⟨_, set_pll_fbd state s hs ha hp1 hp2, ?_⟩
  rw [pll_fbd_keeps_pllinclk, pll_fbd_update, Nat.shiftLeft_eq, ← Nat.mul_assoc,
    Nat.mul_div_cancel _ (Nat.two_pow_pos _)]
  have h1 := Nat.div_add_mod s.speed_per_lane state.pllinclk_hz
  have h2 := Nat.mod_lt s.speed_per_lane (show 0 < state.pllinclk_hz by omega)
  exact ⟨Nat.mul_div_le _ _, by omega, fun hd => Nat.mul_div_cancel' hd⟩

/-- Witness for C23: the amended statement for the sample device (PLL input
clock 4 MHz) and its link setting of 432 Mbit/s per lane. -/
theorem set_pll_rate_witness :
    ∃ st, tc358746_set_pll sample_state = some st ∧
      st.pllinclk_hz * st.pll_fbd / 2 ^ sample_link_432.speed_range
        ≤ sample_link_432.speed_per_lane ∧
      sample_link_432.speed_per_lane <
        st.pllinclk_hz * st.pll_fbd / 2 ^ sample_link_432.speed_range
          + sample_state.pllinclk_hz ∧
      (sample_state.pllinclk_hz ∣ sample_link_432.speed_per_lane →
        st.pllinclk_hz * st.pll_fbd / 2 ^ sample_link_432.speed_range
          = sample_link_432.speed_per_lane) :=
  set_pll_rate sample_state sample_link_432 rfl (by decide) (by decide) (by decide)

/-! ## C24: the ranges of the PLL derivation -/

/-- For a reference clock in `[6 MHz, 40 MHz]` the rounded PLL input clock never
exceeds 5 MHz. -/
theorem pllinclk_le_5mhz (refclk : Nat) (h1 : 6000000 ≤ refclk) (h2 : refclk ≤ 40000000) :
    DIV_ROUND_CLOSEST refclk (u8 (DIV_ROUND_CLOSEST refclk 4000000)) ≤ 5000000 := by
  obtain ⟨hp1, hp2⟩ := pll_prediv_bounds refclk h1 h2
  have hp3 : refclk + 2000000 < 4000000 * (u8 (DIV_ROUND_CLOSEST refclk 4000000) + 1) := by
    unfold u8 DIV_ROUND_CLOSEST u32; omega
  generalize u8 (DIV_ROUND_CLOSEST refclk 4000000) = p at hp1 hp2 hp3
  unfold DIV_ROUND_CLOSEST u32
  have hx : (refclk + p / 2) % 2 ^ 32 = refclk + p / 2 := Nat.mod_eq_of_lt (by omega)
  rw [hx]
  exact Nat.div_le_of_le_mul (by omega)

/-- The ranges of the PLL derivation for a rate below `2^32`. -/
theorem probe_fw_pll_ranges_of_lt (state : tc358746_state) (refclk : Nat)
    (hfit : refclk < 2 ^ 32) :
    ((probe_fw_pll state refclk).1 = 0 →
      2 ≤ (probe_fw_pll state refclk).2.pll_prd ∧ (probe_fw_pll state refclk).2.pll_prd ≤ 10 ∧
      4000000 ≤ (probe_fw_pll state refclk).2.pllinclk_hz ∧
      (probe_fw_pll state refclk).2.pllinclk_hz ≤ 5000000) ∧
    (6000000 ≤ refclk → refclk ≤ 40000000 →
      ¬ (u8 (DIV_ROUND_CLOSEST refclk 4000000) < 1 ∨
          16 < u8 (DIV_ROUND_CLOSEST refclk 4000000)) ∧
      ¬ 40000000 < DIV_ROUND_CLOSEST refclk (u8 (DIV_ROUND_CLOSEST refclk 4000000)) ∧
      ((probe_fw_pll state refclk).1 ≠ 0 ↔
        DIV_ROUND_CLOSEST refclk (u8 (DIV_ROUND_CLOSEST refclk 4000000)) < 4000000)) := by
  have hE : (-EINVAL : Int) ≠ 0 := by decide
  have hn := u32_of_lt refclk hfit
  by_cases hr : refclk < 6000000 ∨ 40000000 < refclk
  · have hv : probe_fw_pll state refclk = (-EINVAL, state) := by
      unfold probe_fw_pll; simp only [hn, if_pos hr]
    rw [hv]
    exact ⟨fun h => absurd h hE, fun h1 h2 => absurd hr (by omega)⟩
  · have h1 : 6000000 ≤ refclk := by omega
    have h2 : refclk ≤ 40000000 := by omega
    obtain ⟨hp1, hp2⟩ := pll_prediv_bounds refclk h1 h2
    have hle := pllinclk_le_5mhz refclk h1 h2
    have hp : ¬ (u8 (DIV_ROUND_CLOSEST refclk 4000000) < 1 ∨
        16 < u8 (DIV_ROUND_CLOSEST refclk 4000000)) := by omega
    have hu : ¬ 40000000 < DIV_ROUND_CLOSEST refclk (u8 (DIV_ROUND_CLOSEST refclk 4000000)) := by
      omega
    by_cases hc : DIV_ROUND_CLOSEST refclk (u8 (DIV_ROUND_CLOSEST refclk 4000000)) < 4000000 ∨
        40000000 < DIV_ROUND_CLOSEST refclk (u8 (DIV_ROUND_CLOSEST refclk 4000000))
    · have hv : probe_fw_pll state refclk =
          (-EINVAL, { state with pll_prd := u8 (DIV_ROUND_CLOSEST refclk 4000000) }) := by
        unfold probe_fw_pll; simp only [hn, if_neg hr, if_neg hp, if_pos hc]
      rw [hv]
      exact ⟨fun h => absurd h hE, fun _ _ => ⟨hp, hu, fun _ => by omega, fun _ => hE⟩⟩
    · have hv : probe_fw_pll state refclk =
          (0, { state with
            pll_prd := u8 (DIV_ROUND_CLOSEST refclk 4000000)
            pllinclk_hz :=
              DIV_ROUND_CLOSEST refclk (u8 (DIV_ROUND_CLOSEST refclk 4000000)) }) := by
        unfold probe_fw_pll; simp only [hn, if_neg hr, if_neg hp, if_neg hc]
      rw [hv]
      refine ⟨fun _ => ?_, fun _ _ => ⟨hp, hu, fun h => absurd rfl h, fun h => absurd h (by omega)⟩⟩
      show 2 ≤ u8 (DIV_ROUND_CLOSEST refclk 4000000) ∧
        u8 (DIV_ROUND_CLOSEST refclk 4000000) ≤ 10 ∧
        4000000 ≤ DIV_ROUND_CLOSEST refclk (u8 (DIV_ROUND_CLOSEST refclk 4000000)) ∧
        DIV_ROUND_CLOSEST refclk (u8 (DIV_ROUND_CLOSEST refclk 4000000)) ≤ 5000000
      exact ⟨hp1, hp2, by omega, hle⟩

/-- C24: whenever the PLL derivation of `tc358746_probe_fw` succeeds, the
pre-divider lies in `[2, 10]` and the PLL input clock in
`[4,000,000, 5,000,000]` Hz; and for every reference clock in
`[6 MHz, 40 MHz]` neither the pre-divider check `[1, 16]` nor the 40 MHz upper
check fails, so that the derivation fails exactly when the rounded input clock
is below 4 MHz. -/
theorem probe_fw_pll_success_ranges (state : tc358746_state) (refclk : Nat) :
    ((probe_fw_pll state refclk).1 = 0 →
      2 ≤ (probe_fw_pll state refclk).2.pll_prd ∧ (probe_fw_pll state refclk).2.pll_prd ≤ 10 ∧
      4000000 ≤ (probe_fw_pll state refclk).2.pllinclk_hz ∧
      (probe_fw_pll state refclk).2.pllinclk_hz ≤ 5000000) ∧
    (6000000 ≤ refclk → refclk ≤ 40000000 →
      ¬ (u8 (DIV_ROUND_CLOSEST refclk 4000000) < 1 ∨
          16 < u8 (DIV_ROUND_CLOSEST refclk 4000000)) ∧
      ¬ 40000000 < DIV_ROUND_CLOSEST refclk (u8 (DIV_ROUND_CLOSEST refclk 4000000)) ∧
      ((probe_fw_pll state refclk).1 ≠ 0 ↔
        DIV_ROUND_CLOSEST refclk (u8 (DIV_ROUND_CLOSEST refclk 4000000)) < 4000000)) := by
  constructor
  · rw [probe_fw_pll_narrow]
    exact (probe_fw_pll_ranges_of_lt state (u32 refclk)
      (Nat.mod_lt _ (Nat.two_pow_pos 32))).1
  · intro h1 h2
    exact (probe_fw_pll_ranges_of_lt state refclk (by omega)).2 h1 h2

/-- Witness for C24: the statement at the reference clocks 24 MHz (success,
pre-divider 6, input clock 4 MHz) and 27 MHz (the input clock 3,857,143 Hz is
below 4 MHz). -/
theorem probe_fw_pll_success_ranges_witness :
    ((probe_fw_pll sample_zero_state 24000000).1 = 0 ∧
      2 ≤ (probe_fw_pll sample_zero_state 24000000).2.pll_prd ∧
      (probe_fw_pll sample_zero_state 24000000).2.pll_prd ≤ 10 ∧
      4000000 ≤ (probe_fw_pll sample_zero_state 24000000).2.pllinclk_hz ∧
      (probe_fw_pll sample_zero_state 24000000).2.pllinclk_hz ≤ 5000000) ∧
    (6000000 ≤ 27000000 ∧ 27000000 ≤ 40000000 ∧
      ¬ (u8 (DIV_ROUND_CLOSEST 27000000 4000000) < 1 ∨
          16 < u8 (DIV_ROUND_CLOSEST 27000000 4000000)) ∧
      ¬ 40000000 < DIV_ROUND_CLOSEST 27000000 (u8 (DIV_ROUND_CLOSEST 27000000 4000000)) ∧
      ((probe_fw_pll sample_zero_state 27000000).1 ≠ 0 ↔
        DIV_ROUND_CLOSEST 27000000 (u8 (DIV_ROUND_CLOSEST 27000000 4000000)) < 4000000)) :=
  ⟨⟨by decide, (probe_fw_pll_success_ranges sample_zero_state 24000000).1 (by decide)⟩,
    by decide, by decide,
    (probe_fw_pll_success_ranges sample_zero_state 27000000).2 (by decide) (by decide)⟩

/-! ## C25: feasibility needs enough horizontal blanking -/

/-- The line time that `adjust_fifo_locals` computes is the blanking time plus
the active time. -/
theorem adjust_fifo_locals_htotal (state : tc358746_state) (format : tc358746_mbus_fmt)
    (csi : tc358746_csi_param) (width : Int) (l : fifo_locals)
    (hl : adjust_fifo_locals state format csi width = some l) :
    l.p_htotal_ps =
      u32 (u32 (1000000000 / (state.pclk / 1000) * state.hblank) + l.p_hactive_ps) := by
  unfold adjust_fifo_locals at hl
  by_cases hc : state.pclk / 1000 = 0 ∨
      u32 (csi.speed_per_lane * csi.lane_num) / 1000 = 0 ∨ csi.speed_per_lane >>> 3 / 1000 = 0
  · simp only [if_pos hc] at hl
    exact Option.noConfusion hl
  · simp only [if_neg hc] at hl
    rw [← Option.some.inj hl]

/-- C25: when neither the blanking time `pclk_period_ps * hblank` nor the
HS-LP-HS transition time overflows 31 bits, every FIFO depth that is feasible
for a format, link setting and width comes with a blanking time that strictly
exceeds `csi_hs_lp_hs_ps`; hence when the blanking time does not exceed
`csi_hs_lp_hs_ps`, no FIFO depth is feasible at any width, and
`tc358746_adjust_fifo_size` fails with `-EINVAL` at every width. -/
theorem feasible_needs_blanking (state : tc358746_state) (format : tc358746_mbus_fmt)
    (csi : tc358746_csi_param)
    (hb : 1000000000 / (state.pclk / 1000) * state.hblank < 2 ^ 31)
    (hh : csi.csi_hs_lp_hs_ps < 2 ^ 31) :
    (∀ (width : Int) (F : Nat), fifo_feasible state format csi width F →
      csi.csi_hs_lp_hs_ps < 1000000000 / (state.pclk / 1000) * state.hblank) ∧
    (1000000000 / (state.pclk / 1000) * state.hblank ≤ csi.csi_hs_lp_hs_ps →
      ∀ width : Int, (∀ F, ¬ fifo_feasible state format csi width F) ∧
        (periods_defined state format csi →
          tc358746_adjust_fifo_size state format csi width = some (-EINVAL, 512))) := by
  have hu : u32 (1000000000 / (state.pclk / 1000) * state.hblank)
      = 1000000000 / (state.pclk / 1000) * state.hblank := by
    unfold u32; exact Nat.mod_eq_of_lt (by omega)
  have key : ∀ (width : Int) (F : Nat), fifo_feasible state format csi width F →
      csi.csi_hs_lp_hs_ps < 1000000000 / (state.pclk / 1000) * state.hblank := by
    intro width F hf
    obtain ⟨l, hl, hfit⟩ := hf
    by_contra hle
    have ht := adjust_fifo_locals_htotal state format csi width l hl
    have hno := fifo_fits_short_blank format csi l width F _ ht (by rw [hu]; omega) hh
    rw [hno] at hfit
    exact Bool.noConfusion hfit
  refine ⟨key, fun hle width => ⟨fun F hf => ?_, fun hd => ?_⟩⟩
  · have := key width F hf
    omega
  · exact adjust_fifo_size_short_blank state format csi width hd ⟨by rw [hu]; exact hle, hh⟩

/-- Witness for C25: the statement for the sample device (pixel clock
74.25 MHz, hblank 280, blanking time 3,771,040 ps) and its link setting of
432 Mbit/s per lane (HS-LP-HS transition time 888,864 ps). -/
theorem feasible_needs_blanking_witness :
    (∀ (width : Int) (F : Nat),
      fifo_feasible sample_state sample_uyvy8_2x8 sample_link_432 width F →
      sample_link_432.csi_hs_lp_hs_ps <
        1000000000 / (sample_state.pclk / 1000) * sample_state.hblank) ∧
    (1000000000 / (sample_state.pclk / 1000) * sample_state.hblank
        ≤ sample_link_432.csi_hs_lp_hs_ps →
      ∀ width : Int,
        (∀ F, ¬ fifo_feasible sample_state sample_uyvy8_2x8 sample_link_432 width F) ∧
        (periods_defined sample_state sample_uyvy8_2x8 sample_link_432 →
          tc358746_adjust_fifo_size sample_state sample_uyvy8_2x8 sample_link_432 width
            = some (-EINVAL, 512))) :=
  feasible_needs_blanking sample_state sample_uyvy8_2x8 sample_link_432
    (by decide) (by decide)

/-! ## C26: the format table -/

/-- C26 (evaluation of the code): the entry of `tc358746_formats` for
`MEDIA_BUS_FMT_GBR888_1X24` has `bus_width = 24`, `bpp = 24` and `ppp = 2`, so
that `bus_width * ppp = 48` differs from `bpp`; the four other entries have
`bus_width > 0` and `bpp = bus_width * ppp`. -/
theorem formats_gbr888_inconsistent (h : tc358746_h) :
    (∃ f, (tc358746_formats h)[4]? = some f ∧ f.code = MEDIA_BUS_FMT_GBR888_1X24 ∧
      f.bus_width = 24 ∧ f.bpp = 24 ∧ f.ppp = 2 ∧ f.bus_width * f.ppp = 48) ∧
    (∀ f ∈ tc358746_formats h, f.code ≠ MEDIA_BUS_FMT_GBR888_1X24 →
      0 < f.bus_width ∧ f.bpp = f.bus_width * f.ppp) ∧
    ¬ (∀ f ∈ tc358746_formats h, 0 < f.bus_width ∧ f.bpp = f.bus_width * f.ppp) := by
  refine ⟨⟨_, rfl, rfl, rfl, rfl, rfl, rfl⟩, ?_, ?_⟩
  · intro f hf hc
    unfold tc358746_formats at hf
    simp only [List.mem_cons, List.mem_singleton, List.not_mem_nil, or_false] at hf
    rcases hf with rfl | rfl | rfl | rfl | rfl
    · exact ⟨Nat.succ_pos _, rfl⟩
    · exact ⟨Nat.succ_pos _, rfl⟩
    · exact ⟨Nat.succ_pos _, rfl⟩
    · exact ⟨Nat.succ_pos _, rfl⟩
    · exact absurd rfl hc
  · intro hall
    have hm : ∀ f, (tc358746_formats h)[4]? = some f → f.bpp = f.bus_width * f.ppp :=
      fun f hf => (hall f (List.getElem?_mem hf)).2
    have h5 : (24 : Nat) = 24 * 2 := hm _ rfl
    exact absurd h5 (by decide)

end TC358746
